import Mathlib

/-!
Shallow embedding of the `ldpsc` C-prototype parser and interceptor generator
(`src/c_parser/basic.rs` and `src/c_parser/mod.rs`).  Input buffers are
modelled as `List Char`; the three-way outcome of the nom 4 streaming
combinators (success, recoverable error, "need more input") is modelled by
`PResult`.  Error details (nom error kinds, needed sizes) are not modelled:
no claim depends on them.
-/

namespace Ldpsc

/-- Characters of a string literal, used to write parser inputs and outputs. -/
def str (s : String) : List Char := s.data

/-- Outcome of a nom 4 streaming parser: success with the remaining input and a
value, a recoverable error (`nom::Err::Error`), or `nom::Err::Incomplete`. -/
inductive PResult (α : Type) where
  | ok (rest : List Char) (val : α)
  | error
  | incomplete
deriving DecidableEq, Repr

/-- A parser over a character buffer. -/
abbrev Parser (α : Type) := List Char → PResult α

/-- Sequencing of parsers, as nom sequences sub-parsers inside `do_parse!` and
friends: errors and incompleteness propagate. -/
def bindP (p : Parser α) (f : α → Parser β) : Parser β := fun i =>
  match p i with
  | .ok r v => f v r
  | .error => .error
  | .incomplete => .incomplete

/-- The `map!` combinator. -/
def mapP (p : Parser α) (f : α → β) : Parser β := fun i =>
  match p i with
  | .ok r v => .ok r (f v)
  | .error => .error
  | .incomplete => .incomplete

/-- A parser that consumes nothing and returns `v`. -/
def pureP (v : α) : Parser α := fun i => .ok i v

/-- The `alt!` combinator restricted to two branches: the second branch is
tried only when the first fails with a recoverable error; `Incomplete` is
returned immediately, as nom 4 does. -/
def orElseP (p q : Parser α) : Parser α := fun i =>
  match p i with
  | .error => q i
  | r => r

/-- The `value!` combinator. -/
def valueP (v : α) (p : Parser β) : Parser α := mapP p (fun _ => v)

/-- The `opt!` combinator: a recoverable error yields `none` without consuming
input, while `Incomplete` propagates (nom 4 behaviour). -/
def optP (p : Parser α) : Parser (Option α) := fun i =>
  match p i with
  | .ok r v => .ok r (some v)
  | .error => .ok i none
  | .incomplete => .incomplete

/-- The `terminated!` combinator. -/
def terminatedP (p : Parser α) (q : Parser β) : Parser α :=
  bindP p fun v => bindP q fun _ => pureP v

/-- The `one_of!` combinator (streaming: empty input is `Incomplete`). -/
def one_of (s : List Char) : Parser Char := fun i =>
  match i with
  | [] => .incomplete
  | c :: r => if c ∈ s then .ok r c else .error

/-- Helper for `tagP`: match the tag characters one by one.  Running out of
input while every seen character matched is `Incomplete`, as for nom `tag!`. -/
def tagAux : List Char → List Char → PResult Unit
  | [], i => .ok i ()
  | _ :: _, [] => .incomplete
  | c :: t, d :: i => if c = d then tagAux t i else .error

/-- The `tag!` combinator; on success it returns the tag itself (the matched
slice). -/
def tagP (t : List Char) : Parser (List Char) := fun i =>
  match tagAux t i with
  | .ok r _ => .ok r t
  | .error => .error
  | .incomplete => .incomplete

/-- The `char!` combinator. -/
def charP (c : Char) : Parser Char := fun i =>
  match i with
  | [] => .incomplete
  | d :: r => if d = c then .ok r c else .error

/-- Whitespace characters recognised by nom's `ws!` and `multispace`. -/
def isWsChar (c : Char) : Bool := c = ' ' || c = '\t' || c = '\r' || c = '\n'

/-- The whitespace eater used by `ws!` (`eat_separator`): consume the maximal
run of whitespace; if the whole remaining buffer is whitespace the streaming
implementation answers `Incomplete`. -/
def sp : Parser (List Char)
  | [] => .incomplete
  | c :: r =>
    if isWsChar c then
      match sp r with
      | .ok r2 v => .ok r2 (c :: v)
      | .error => .error
      | .incomplete => .incomplete
    else .ok (c :: r) []

/-- nom's `multispace`: at least one whitespace character, maximal, streaming
(`Incomplete` when the buffer ends while still consuming whitespace). -/
def multispace : Parser (List Char)
  | [] => .incomplete
  | c :: r => if isWsChar c then sp (c :: r) else .error

/-- Fuelled body of `many0!`.  nom 4 stops on a recoverable error, propagates
`Incomplete`, and treats a sub-parse that consumed nothing as an error; hence
every iteration consumes input and fuel `length + 1` is never exhausted. -/
def many0F (p : Parser α) : Nat → Parser (List α)
  | 0, _ => .error
  | fuel + 1, i =>
    match p i with
    | .error => .ok i []
    | .incomplete => .incomplete
    | .ok r v =>
      if r.length < i.length then
        match many0F p fuel r with
        | .ok r2 vs => .ok r2 (v :: vs)
        | .error => .error
        | .incomplete => .incomplete
      else .error

/-- The `many0!` combinator. -/
def many0 (p : Parser α) : Parser (List α) := fun i => many0F p (i.length + 1) i

/-- Fuelled loop of `separated_list!` after the first element: parse a
separator and then an element, stopping (without consuming the separator) when
either fails recoverably or consumes nothing, and propagating `Incomplete`. -/
def sepLoopF (sep : Parser β) (item : Parser α) : Nat → Parser (List α)
  | 0, _ => .error
  | fuel + 1, input =>
    match sep input with
    | .error => .ok input []
    | .incomplete => .incomplete
    | .ok i2 _ =>
      if i2.length = input.length then .ok input []
      else
        match item i2 with
        | .error => .ok input []
        | .incomplete => .incomplete
        | .ok i3 o =>
          if i3.length = i2.length then .ok input []
          else
            match sepLoopF sep item fuel i3 with
            | .ok r os => .ok r (o :: os)
            | .error => .error
            | .incomplete => .incomplete

/-- The `separated_list!` combinator (nom 4 semantics: a recoverable error on
the first element yields the empty list; a first element consuming nothing is
an error; `Incomplete` propagates from every sub-parse). -/
def separated_list (sep : Parser β) (item : Parser α) : Parser (List α) := fun input =>
  match item input with
  | .error => .ok input []
  | .incomplete => .incomplete
  | .ok i1 o =>
    if i1.length = input.length then .error
    else
      match sepLoopF sep item (i1.length + 1) i1 with
      | .ok r os => .ok r (o :: os)
      | .error => .error
      | .incomplete => .incomplete

/-! Parsers of `src/c_parser/basic.rs`.  Each is wrapped in `recognize!` in the
source, so each returns the consumed characters. -/

/-- Characters accepted by `nondigit`. -/
def ndChars : List Char := str "_abcdefghijklmnopqrstuvwxyzABCDEFGHIJKLMNOPQRSTUVWXYZ"

/-- Characters accepted by `digit`. -/
def digitChars : List Char := str "0123456789"

/-- Characters accepted by `hexadecimal_digit`. -/
def hexChars : List Char := str "0123456789abcdefABCDEF"

/-- The `nondigit` parser. -/
def nondigit : Parser (List Char) := mapP (one_of ndChars) (fun c => [c])

/-- The `digit` parser. -/
def digit : Parser (List Char) := mapP (one_of digitChars) (fun c => [c])

/-- The `hexadecimal_digit` parser. -/
def hexadecimal_digit : Parser (List Char) := mapP (one_of hexChars) (fun c => [c])

/-- The `hex_quad` parser: exactly four hexadecimal digits (`count_fixed!`). -/
def hex_quad : Parser (List Char) :=
  bindP hexadecimal_digit fun a =>
  bindP hexadecimal_digit fun b =>
  bindP hexadecimal_digit fun c =>
  bindP hexadecimal_digit fun d =>
  pureP (a ++ b ++ c ++ d)

/-- The `universal_character_name` parser. -/
def universal_character_name : Parser (List Char) :=
  orElseP
    (bindP (tagP (str "\\u")) fun t => bindP hex_quad fun q => pureP (t ++ q))
    (bindP (tagP (str "\\U")) fun t =>
      bindP hex_quad fun q1 => bindP hex_quad fun q2 => pureP (t ++ q1 ++ q2))

/-- The `identifier_nondigit` parser. -/
def identifier_nondigit : Parser (List Char) := orElseP nondigit universal_character_name

/-- The `identifier` parser: an `identifier_nondigit` followed by any number of
`identifier_nondigit | digit`, returning the consumed characters. -/
def identifier : Parser (List Char) :=
  bindP identifier_nondigit fun a =>
  bindP (many0 (orElseP identifier_nondigit digit)) fun bs =>
  pureP (a ++ bs.flatten)

/-! Data model and code generator of `src/c_parser/mod.rs`. -/

/-- The `TypeQualifier` enum. -/
inductive TypeQualifier where
  | Const
  | Restrict
  | Volatile
  | Atomic
deriving DecidableEq, Repr

/-- The `Display` rendering of a type qualifier. -/
def displayQualifier : TypeQualifier → List Char
  | .Const => str "const"
  | .Restrict => str "restrict"
  | .Volatile => str "volatile"
  | .Atomic => str "_Atomic"

/-- The `Type` struct of `mod.rs` (named `CType` here because `Type` is a Lean
keyword): qualifiers, one specifier keyword, and the pointer depth. -/
structure CType where
  qualifiers : List TypeQualifier
  specifier : List Char
  pointer : Nat
deriving DecidableEq, Repr

/-- The `Display` rendering of a `Type`: each qualifier followed by a space,
the specifier, and, when the pointer depth is positive, a space and the
stars. -/
def displayType (t : CType) : List Char :=
  (t.qualifiers.map (fun q => displayQualifier q ++ str " ")).flatten
  ++ t.specifier
  ++ (if t.pointer > 0 then str " " else [])
  ++ List.replicate t.pointer '*'

/-- `Type::get_format_specifier`, matching on (specifier, pointer depth) in
source order. -/
def get_format_specifier (t : CType) : List Char :=
  if t.specifier = str "char" ∧ t.pointer = 1 then str "\\\"%s\\\""
  else if t.specifier = str "int" ∧ t.pointer = 0 then str "%d"
  else if t.specifier = str "size_t" ∧ t.pointer = 0 then str "%zd"
  else if t.pointer = 0 then str "\x7bUnknown Type: %d\x7d"
  else str "%p"

/-- `Type::is_void`. -/
def is_void (t : CType) : Bool := t.specifier = str "void" && t.pointer == 0

/-- The `Function` struct: return type, name and parameter list. -/
structure Function where
  return_type : CType
  name : List Char
  parameters : List (CType × List Char)
deriving DecidableEq, Repr

/-- One parameter as rendered inside a signature: the type, a space when the
type has no pointer stars, and the parameter name. -/
def paramText (p : CType × List Char) : List Char :=
  displayType p.1 ++ (if p.1.pointer = 0 then str " " else []) ++ p.2

/-- The comma-separated parameter list of `Function::get_signature` (the loop
writes `", "` after every parameter but the last). -/
def paramListText : List (CType × List Char) → List Char
  | [] => []
  | [p] => paramText p
  | p :: q :: ps => paramText p ++ str ", " ++ paramListText (q :: ps)

/-- `Function::get_signature`, optionally as a function pointer. -/
def get_signature (fn : Function) (as_pointer : Bool) : List Char :=
  (if fn.return_type.pointer > 0 then displayType fn.return_type
   else displayType fn.return_type ++ str " ")
  ++ (if as_pointer then str "(*original_" ++ fn.name ++ str ")(" else fn.name ++ str "(")
  ++ paramListText fn.parameters
  ++ str ")"

/-- The argument list of the forwarding call in `Function::get_definition`. -/
def argNamesText : List (CType × List Char) → List Char
  | [] => []
  | [p] => p.2
  | p :: q :: ps => p.2 ++ str ", " ++ argNamesText (q :: ps)

/-- The comma-separated parameter format tokens inside the `fprintf` format
string of `Function::get_definition`. -/
def fmtTokensText : List (CType × List Char) → List Char
  | [] => []
  | [p] => get_format_specifier p.1
  | p :: q :: ps => get_format_specifier p.1 ++ str ", " ++ fmtTokensText (q :: ps)

/-- The full `fprintf` format string written by `Function::get_definition`
(the text between the two quotes of the generated C code): when the return
type is kept, the return-value token and `" = "` come first, then the function
name, the parenthesised parameter tokens, and a literal backslash-n. -/
def log_format (fn : Function) : List Char :=
  (if is_void fn.return_type then [] else get_format_specifier fn.return_type ++ str " = ")
  ++ fn.name ++ str "(" ++ fmtTokensText fn.parameters ++ str ")\\n"

/-- The arguments written after the format string of the `fprintf` call:
`", result"` first when the return type is kept, then `", name"` for every
parameter in order. -/
def log_args (fn : Function) : List Char :=
  (if is_void fn.return_type then [] else str ", result")
  ++ (fn.parameters.map (fun p => str ", " ++ p.2)).flatten

/-- `Function::get_definition`: the interceptor definition, assembled exactly
in the order of the `write!` calls of the source. -/
def get_definition (fn : Function) (output : List Char) : List Char :=
  get_signature fn false ++ str " \x7b\n"
  ++ (if output = str "-" then str "    FILE *output = stderr;\n"
      else str "    FILE *output = fopen(\"" ++ output ++ str "\", \"a\");\n")
  ++ str "    " ++ get_signature fn true ++ str " = dlsym(RTLD_NEXT, \"" ++ fn.name ++ str "\");\n"
  ++ str "    "
  ++ (if is_void fn.return_type then []
      else (if fn.return_type.pointer > 0 then displayType fn.return_type ++ str "result = "
            else displayType fn.return_type ++ str " result = "))
  ++ str "original_" ++ fn.name ++ str "(" ++ argNamesText fn.parameters ++ str ");\n"
  ++ str "    fprintf(output, \"" ++ log_format fn ++ str "\"" ++ log_args fn ++ str ");\n"
  ++ (if output = str "-" then [] else str "    fclose(output);\n")
  ++ (if is_void fn.return_type then [] else str "    return result;\n")
  ++ str "\x7d\n"

/-! Parsers of `mod.rs`. -/

/-- The qualifier alternative of `parse_type`, in source order. -/
def qualifier_alt : Parser TypeQualifier :=
  orElseP (valueP .Const (tagP (str "const")))
  (orElseP (valueP .Restrict (tagP (str "restrict")))
  (orElseP (valueP .Volatile (tagP (str "volatile")))
           (valueP .Atomic (tagP (str "_Atomic")))))

/-- The specifier alternative of `parse_type`, in source order. -/
def specifier_alt : Parser (List Char) :=
  orElseP (tagP (str "void")) (orElseP (tagP (str "char")) (orElseP (tagP (str "short"))
  (orElseP (tagP (str "int")) (orElseP (tagP (str "long")) (orElseP (tagP (str "float"))
  (orElseP (tagP (str "double")) (orElseP (tagP (str "signed")) (orElseP (tagP (str "unsigned"))
  (orElseP (tagP (str "_Bool")) (orElseP (tagP (str "_Complex")) (tagP (str "size_t"))))))))))))

/-- `parse_type`: qualifiers each terminated by whitespace, then the specifier
wrapped in `ws!` (whitespace eaten before and after), then the pointer
stars. -/
def parse_type : Parser CType :=
  bindP (many0 (terminatedP qualifier_alt multispace)) fun qs =>
  bindP sp fun _ =>
  bindP specifier_alt fun s =>
  bindP sp fun _ =>
  bindP (many0 (valueP () (tagP (str "*")))) fun stars =>
  pureP ⟨qs, s, stars.length⟩

/-- The separator `ws!(tag!(","))` of the parameter list. -/
def comma_sep : Parser Unit :=
  bindP sp fun _ => bindP (tagP (str ",")) fun _ => bindP sp fun _ => pureP ()

/-- One parameter: `pair!(parse_type, identifier)` with the whitespace
threading of the surrounding `ws!`. -/
def param_item : Parser (CType × List Char) :=
  bindP sp fun _ => bindP parse_type fun t => bindP sp fun _ =>
  bindP identifier fun n => pureP (t, n)

/-- The parameter list `ws!(separated_list!(ws!(tag!(",")), ...))`. -/
def parameters : Parser (List (CType × List Char)) :=
  bindP sp fun _ => bindP (separated_list comma_sep param_item) fun l =>
  bindP sp fun _ => pureP l

/-- The `function` parser of `mod.rs`: return type, optional whitespace, name,
optional whitespace, parenthesised parameter list, optional whitespace and the
terminating semicolon. -/
def function : Parser Function :=
  bindP parse_type fun rt =>
  bindP (optP multispace) fun _ =>
  bindP identifier fun nm =>
  bindP (optP multispace) fun _ =>
  bindP (charP '(') fun _ =>
  bindP parameters fun ps =>
  bindP (charP ')') fun _ =>
  bindP (optP multispace) fun _ =>
  bindP (charP ';') fun _ =>
  pureP ⟨rt, nm, ps⟩

/-- The part of the program `Config` that `transform_file` reads: the debug
output destination (`"-"` meaning standard error). -/
structure Config where
  debug_output : List Char

/-- Fuelled declaration-stream loop of `transform_file`: parse declarations
until the parser answers `Incomplete` (success) or errors (failure).  The
source loop has no explicit consumption check; a successful `function` parse
always consumes input (it ends with a `char!(';')`), so the guard below is
never hit with fuel `length + 1`. -/
def parseAllF : Nat → List Char → Option (List Function)
  | 0, _ => none
  | fuel + 1, input =>
    match function input with
    | .incomplete => some []
    | .error => none
    | .ok rest f =>
      if rest.length < input.length then
        match parseAllF fuel rest with
        | some fs => some (f :: fs)
        | none => none
      else none

/-- The declaration-stream driver of `transform_file`. -/
def parseAll (input : List Char) : Option (List Function) :=
  parseAllF (input.length + 1) input

/-- The three header lines pushed by `transform_file` before the definitions. -/
def headersText : List Char := str "#define _GNU_SOURCE\n#include<dlfcn.h>\n#include<stdio.h>\n"

/-- `transform_file`: parse all declarations, then emit the headers and, for
each declaration in order, a newline and its interceptor definition.  `none`
models the `Err` result of the source (writing to a Rust `String` cannot
fail, so the only error source is the parser). -/
def transform_file (content : List Char) (config : Config) : Option (List Char) :=
  match parseAll content with
  | none => none
  | some fs =>
    some (headersText ++ (fs.map (fun f => '\n' :: get_definition f config.debug_output)).flatten)


/-! Derived definitions used by the verification below. -/

/-- The twelve specifier keywords of `parse_type`, in the order of the `alt!`. -/
def specSet : List (List Char) :=
  [str "void", str "char", str "short", str "int", str "long", str "float",
   str "double", str "signed", str "unsigned", str "_Bool", str "_Complex", str "size_t"]

/-- All keywords known to `parse_type`: the specifiers and the qualifiers. -/
def keywordSet : List (List Char) :=
  specSet ++ [str "const", str "restrict", str "volatile", str "_Atomic"]

/-- Modelled from the spec: the format-token selection table keyed by
(specifier, pointer depth) as the spec states it, which the source
`Type::get_format_specifier` is claimed to refine. -/
def formatTokenSpec (s : List Char) (d : Nat) : List Char :=
  match d with
  | 0 =>
    if s = str "int" then str "%d"
    else if s = str "size_t" then str "%zd"
    else str "\x7bUnknown Type: %d\x7d"
  | 1 => if s = str "char" then str "\\\"%s\\\"" else str "%p"
  | _ + 2 => str "%p"

/-- The declaration parsed from `size_t read(int fd, char *buf, size_t count);`. -/
def readFn : Function :=
  ⟨⟨[], str "size_t", 0⟩, str "read",
   [(⟨[], str "int", 0⟩, str "fd"), (⟨[], str "char", 1⟩, str "buf"),
    (⟨[], str "size_t", 0⟩, str "count")]⟩

/-- The declaration parsed from `void noop();`. -/
def noopFn : Function := ⟨⟨[], str "void", 0⟩, str "noop", []⟩

/-- One lexical unit of a C identifier: a nondigit character, a digit, or a
universal-character-name escape of either form. -/
inductive IdUnit where
  | nd (c : Char)
  | dg (c : Char)
  | escU (a b c d : Char)
  | escBigU (a b c d e f g h : Char)
deriving DecidableEq

/-- The characters a unit contributes to the input. -/
def IdUnit.chars : IdUnit → List Char
  | .nd c => [c]
  | .dg c => [c]
  | .escU a b c d => '\\' :: 'u' :: a :: b :: c :: d :: []
  | .escBigU a b c d e f g h => '\\' :: 'U' :: a :: b :: c :: d :: e :: f :: g :: h :: []

/-- Well-formedness of a unit: the single character belongs to its class, and
escape digits are hexadecimal. -/
def IdUnit.valid : IdUnit → Bool
  | .nd c => c ∈ ndChars
  | .dg c => c ∈ digitChars
  | .escU a b c d => a ∈ hexChars && b ∈ hexChars && c ∈ hexChars && d ∈ hexChars
  | .escBigU a b c d e f g h =>
      a ∈ hexChars && b ∈ hexChars && c ∈ hexChars && d ∈ hexChars &&
      e ∈ hexChars && f ∈ hexChars && g ∈ hexChars && h ∈ hexChars

/-- Whether the unit is a bare digit (those may not start an identifier). -/
def IdUnit.isDigitUnit : IdUnit → Bool
  | .dg _ => true
  | _ => false

/-- The characters of a unit list. -/
def unitsChars (us : List IdUnit) : List Char := (us.map IdUnit.chars).flatten

/-- A character at which the identifier lexer must stop: it belongs to neither
identifier class and cannot begin an escape. -/
def StopChar (c : Char) : Prop := c ∉ ndChars ∧ c ∉ digitChars ∧ c ≠ '\\'

/-- A name that the identifier lexer accepts as exactly one maximal token: it
is nonempty, begins like an identifier, and when followed by any stop
character the lexer consumes precisely the name. -/
def GoodName (name : List Char) : Prop :=
  (∃ h t, name = h :: t ∧ (h ∈ ndChars ∨ h = '\\')) ∧
  ∀ c rest, StopChar c → identifier (name ++ c :: rest) = .ok (c :: rest) name

/-- A declaration as the parser can produce it: specifiers drawn from the
fixed set and names lexable as single identifier tokens. -/
def WellFormedFun (fn : Function) : Prop :=
  fn.return_type.specifier ∈ specSet ∧ GoodName fn.name ∧
  ∀ p ∈ fn.parameters, p.1.specifier ∈ specSet ∧ GoodName p.2

/-- The rendered qualifier prefix of a type. -/
def qualsText (qs : List TypeQualifier) : List Char :=
  (qs.map (fun q => displayQualifier q ++ str " ")).flatten

/-- The rendered parameter-list tail after the first parameter. -/
def paramsTailText : List (CType × List Char) → List Char
  | [] => []
  | p :: ps => str ", " ++ paramText p ++ paramsTailText ps

/-! Helper lemmas about the combinators. -/

theorem tagAux_append (t r : List Char) : tagAux t (t ++ r) = .ok r () := by
  induction t with
  | nil => rfl
  | cons c t ih => simp [tagAux, ih]

theorem tagP_append (t r : List Char) : tagP t (t ++ r) = .ok r t := by
  simp [tagP, tagAux_append]

theorem tagP_head_ne (hne : a ≠ c) (t r : List Char) : tagP (a :: t) (c :: r) = .error := by
  simp [tagP, tagAux, hne]

theorem sp_nws (h : isWsChar c = false) (r : List Char) : sp (c :: r) = .ok (c :: r) [] := by
  simp [sp, h]

theorem sp_ws_only : ∀ s : List Char, (∀ c ∈ s, isWsChar c = true) → sp s = .incomplete := by
  intro s h
  induction s with
  | nil => rfl
  | cons c r ih =>
    have hc := h c (by simp)
    have hr : ∀ d ∈ r, isWsChar d = true := fun d hd => h d (by simp [hd])
    simp [sp, hc, ih hr]

theorem isWsChar_elim (h : isWsChar c = true) : c = ' ' ∨ c = '\t' ∨ c = '\r' ∨ c = '\n' := by
  have h2 := h
  simp [isWsChar] at h2
  tauto

theorem qualifier_alt_ws (hc : isWsChar c = true) (r : List Char) :
    qualifier_alt (c :: r) = .error := by
  rcases isWsChar_elim hc with h | h | h | h <;> subst h <;> rfl

theorem many0_error_head (h : p i = .error) : many0 p i = .ok i [] := by
  simp [many0, many0F, h]

theorem multispace_nws (h : isWsChar c = false) (r : List Char) :
    multispace (c :: r) = .error := by
  simp [multispace, h]

theorem opt_ms_nws (h : isWsChar c = false) (r : List Char) :
    optP multispace (c :: r) = .ok (c :: r) none := by
  simp [optP, multispace_nws h]

/-! Driver behaviour on whitespace-only input. -/

theorem function_ws_only (h : ∀ c ∈ s, isWsChar c = true) : function s = .incomplete := by
  cases s with
  | nil => rfl
  | cons c r =>
    have hc := h c (by simp)
    have h1 : terminatedP qualifier_alt multispace (c :: r) = .error := by
      simp [terminatedP, bindP, qualifier_alt_ws hc]
    have h2 : many0 (terminatedP qualifier_alt multispace) (c :: r) = .ok (c :: r) [] :=
      many0_error_head h1
    have h3 : sp (c :: r) = .incomplete := sp_ws_only _ h
    simp [function, parse_type, bindP, h2, h3]

/-- C5.  Format-token selection is a function of (specifier, pointer depth)
only, given by the spec's table: `(char, 1)` yields the quoted C-string token,
`(int, 0)` yields `%d`, `(size_t, 0)` yields `%zd`, any other specifier at
depth 0 yields the literal unknown-type fallback, and any other combination at
depth at least 1 yields `%p`; the qualifiers of the type never influence the
token. -/
theorem c5_format_token_selection :
    ∀ t : CType, get_format_specifier t = formatTokenSpec t.specifier t.pointer := by
  intro t
  obtain ⟨qs, s, d⟩ := t
  match d with
  | 0 => simp [get_format_specifier, formatTokenSpec]
  | 1 => by_cases hs : s = str "char" <;> simp [get_format_specifier, formatTokenSpec, hs]
  | n + 2 =>
    simp [get_format_specifier, formatTokenSpec,
      show ¬ (n + 2 = 1) from by omega, show ¬ (n + 2 = 0) from by omega]

set_option maxRecDepth 40000 in
/-- C1, counterexample.  For the parsed declaration of
`size_t read(int fd, char *buf, size_t count);` the generated format string is
`%zd = read(%d, \"%s\", %zd)\n` — return token first — and the format
arguments start with `result`; it is not the claimed
`read(%d, \"%s\", %zd) = %zd\n` with the parameters first. -/
theorem c1_log_line_counterexample :
    function (str "size_t read(int fd, char *buf, size_t count);") = .ok [] readFn ∧
    log_format readFn = str "%zd = read(%d, \\\"%s\\\", %zd)\\n" ∧
    log_format readFn ≠ str "read(%d, \\\"%s\\\", %zd) = %zd\\n" ∧
    log_args readFn = str ", result, fd, buf, count" := by
  refine ⟨by decide, by decide, by decide, by decide⟩

/-- C1, amended.  For every declaration with a non-void return type, the
format string of the generated log line consists of the return-value's format
token, `" = "`, the function name, an opening parenthesis, each parameter's
format token in parameter order, and a closing parenthesis; the arguments of
the format operation are the return value (`result`) followed by the
parameters in original order. -/
theorem c1_log_line_amended :
    ∀ fn : Function, is_void fn.return_type = false →
      log_format fn = get_format_specifier fn.return_type ++ str " = " ++
        (fn.name ++ (str "(" ++ (fmtTokensText fn.parameters ++ str ")\\n"))) ∧
      log_args fn =
        str ", result" ++ (fn.parameters.map (fun p => str ", " ++ p.2)).flatten := by
  intro fn h
  constructor <;> simp [log_format, log_args, h, List.append_assoc]

set_option maxRecDepth 40000 in
/-- Witness for C1 (amended) at the parsed `read` declaration. -/
theorem c1_log_line_amended_witness :
    log_format readFn = get_format_specifier readFn.return_type ++ str " = " ++
      (readFn.name ++ (str "(" ++ (fmtTokensText readFn.parameters ++ str ")\\n"))) ∧
    log_args readFn =
      str ", result" ++ (readFn.parameters.map (fun p => str ", " ++ p.2)).flatten :=
  c1_log_line_amended readFn (by decide)

set_option maxRecDepth 40000 in
/-- C2, counterexample.  On the buffer `int f(`, which ends in the middle of a
declaration (its remainder is not whitespace), the transformation nevertheless
succeeds, emitting only the fixed header lines. -/
theorem c2_stream_driver_counterexample :
    transform_file (str "int f(") ⟨str "-"⟩ = some headersText ∧
    ¬ ∀ c ∈ str "int f(", isWsChar c = true := by
  refine ⟨by decide, by decide⟩

theorem parseAllF_fuel :
    ∀ (n f1 f2 : Nat) (i : List Char), i.length ≤ n → i.length < f1 → i.length < f2 →
      parseAllF f1 i = parseAllF f2 i := by
  intro n
  induction n with
  | zero =>
    intro f1 f2 i h0 h1 h2
    obtain ⟨g1, rfl⟩ : ∃ g, f1 = g + 1 := ⟨f1 - 1, by omega⟩
    obtain ⟨g2, rfl⟩ : ∃ g, f2 = g + 1 := ⟨f2 - 1, by omega⟩
    simp only [parseAllF]
    cases hf : function i with
    | incomplete => rfl
    | error => rfl
    | ok rest f =>
      have hnl : ¬ rest.length < i.length := by omega
      simp [hnl]
  | succ m ih =>
    intro f1 f2 i h0 h1 h2
    obtain ⟨g1, rfl⟩ : ∃ g, f1 = g + 1 := ⟨f1 - 1, by omega⟩
    obtain ⟨g2, rfl⟩ : ∃ g, f2 = g + 1 := ⟨f2 - 1, by omega⟩
    simp only [parseAllF]
    cases hf : function i with
    | incomplete => rfl
    | error => rfl
    | ok rest f =>
      by_cases hl : rest.length < i.length
      · simp only [if_pos hl]
        rw [ih g1 g2 rest (by omega) (by omega) (by omega)]
      · simp only [if_neg hl]

theorem parseAll_ok_unfold (hok : function s = .ok rest f) (hl : rest.length < s.length) :
    parseAll s = (parseAllF s.length rest).map (fun fs => f :: fs) := by
  unfold parseAll
  rw [parseAllF]
  simp only [hok, if_pos hl]
  cases h2 : parseAllF s.length rest <;> simp [h2]

theorem parseAll_step (hok : function s = .ok rest f) (hl : rest.length < s.length) :
    parseAll s = (parseAll rest).map (fun fs => f :: fs) := by
  rw [parseAll_ok_unfold hok hl,
    parseAllF_fuel rest.length s.length (rest.length + 1) rest le_rfl (by omega) (by omega)]
  rfl

/-- C2, amended.  The declaration-stream driver terminates successfully on
empty or whitespace-only input; more generally, whenever the declaration
parser reports `Incomplete` — the buffer ending anywhere inside a declaration,
not only at a clean boundary — the driver reinterprets this as successful end
of input and discards the partial declaration, and a token-mismatch error is
the only way the transformation fails; after each successfully parsed
declaration the driver recurses on the remaining input, so these facts apply
at every position of the declaration stream. -/
theorem c2_stream_driver_amended :
    (∀ (s : List Char) (cfg : Config), (∀ c ∈ s, isWsChar c = true) →
        transform_file s cfg = some headersText) ∧
    (∀ (s : List Char) (cfg : Config), function s = .incomplete →
        transform_file s cfg = some headersText) ∧
    (∀ (s : List Char) (cfg : Config), function s = .error → transform_file s cfg = none) ∧
    (∀ (s rest : List Char) (f : Function), function s = .ok rest f → rest.length < s.length →
        parseAll s = (parseAll rest).map (fun fs => f :: fs)) := by
  refine ⟨?_, ?_, ?_, ?_⟩
  · intro s cfg h
    simp [transform_file, parseAll, parseAllF, function_ws_only h]
  · intro s cfg h
    simp [transform_file, parseAll, parseAllF, h]
  · intro s cfg h
    simp [transform_file, parseAll, parseAllF, h]
  · intro s rest f hok hl
    exact parseAll_step hok hl

set_option maxRecDepth 100000 in
/-- Witness for C2 (amended): whitespace-only success, mid-declaration
incomplete success, error failure, and the one-declaration step, each at a
concrete input. -/
theorem c2_stream_driver_amended_witness :
    transform_file (str "  \n") ⟨str "-"⟩ = some headersText ∧
    transform_file (str "int g(") ⟨str "-"⟩ = some headersText ∧
    transform_file (str "bar();") ⟨str "-"⟩ = none ∧
    parseAll (str "void a();int g(")
      = (parseAll (str "int g(")).map
          (fun fs => (⟨⟨[], str "void", 0⟩, str "a", []⟩ : Function) :: fs) :=
  ⟨c2_stream_driver_amended.1 _ _ (by decide),
   c2_stream_driver_amended.2.1 _ _ (by decide),
   c2_stream_driver_amended.2.2.1 _ _ (by decide),
   c2_stream_driver_amended.2.2.2 _ _ _ (by decide) (by decide)⟩

set_option maxRecDepth 40000 in
/-- C4, counterexample.  The input `int f()` lacks its terminating semicolon —
a missing delimiter, not a clean end of input — yet `transform_file` does not
abort: the declaration parser reports `Incomplete`, the driver reinterprets
that as end of input, and the transformation succeeds with only the header
lines. -/
theorem c4_atomic_failure_counterexample :
    function (str "int f()") = .incomplete ∧
    transform_file (str "int f()") ⟨str "-"⟩ = some headersText ∧
    ¬ ∀ c ∈ str "int f()", isWsChar c = true := by
  refine ⟨by decide, by decide, by decide⟩

/-- C4, amended.  A parse failure reported as an error aborts the whole
transformation with a single error value and no output text, but a buffer
ending mid-declaration (`Incomplete`) is instead treated as successful end of
input, discarding the unfinished declaration. -/
theorem c4_atomic_failure_amended :
    ∀ (s : List Char) (cfg : Config),
      (function s = .error → transform_file s cfg = none) ∧
      (function s = .incomplete → transform_file s cfg = some headersText) := by
  intro s cfg
  constructor <;> intro h <;> simp [transform_file, parseAll, parseAllF, h]

set_option maxRecDepth 40000 in
/-- Witness for C4 (amended): a hard parse error (`foo` is no specifier)
aborts with no output, while a buffer ending inside a type reports success. -/
theorem c4_atomic_failure_amended_witness :
    transform_file (str "foo();") ⟨str "-"⟩ = none ∧
    transform_file (str "size_t") ⟨str "-"⟩ = some headersText :=
  ⟨(c4_atomic_failure_amended (str "foo();") ⟨str "-"⟩).1 (by decide),
   (c4_atomic_failure_amended (str "size_t") ⟨str "-"⟩).2 (by decide)⟩

set_option maxRecDepth 40000 in
/-- C3, counterexample.  On `intx` the type parser recognises the specifier
`int` as a prefix of the longer identifier and succeeds, leaving `x`
unconsumed; consequently `intx(inty);` parses as a declaration of a function
named `x` with one parameter named `y`.  Moreover on `in`, where no specifier
of the fixed set is found at the position, the type parse is not a hard error
but the streaming `Incomplete` answer. -/
theorem c3_whole_token_counterexample :
    parse_type (str "intx") = .ok (str "x") ⟨[], str "int", 0⟩ ∧
    function (str "intx(inty);") =
      .ok [] ⟨⟨[], str "int", 0⟩, str "x", [(⟨[], str "int", 0⟩, str "y")]⟩ ∧
    (∀ kw ∈ specSet, ¬ kw <+: str "in") ∧
    parse_type (str "in") = .incomplete := by
  refine ⟨by decide, by decide, by decide, by decide⟩

set_option maxRecDepth 100000 in
/-- C10.  Identifiers in name positions are never checked against the keyword
sets: every specifier or qualifier keyword is accepted as a function name, and
`int int(int int);` parses into a declaration named `int` with one parameter
named `int`. -/
theorem c10_keywords_as_identifiers :
    (∀ kw ∈ keywordSet,
      function (str "int " ++ kw ++ str "();") = .ok [] ⟨⟨[], str "int", 0⟩, kw, []⟩) ∧
    function (str "int int(int int);") =
      .ok [] ⟨⟨[], str "int", 0⟩, str "int", [(⟨[], str "int", 0⟩, str "int")]⟩ := by
  refine ⟨by decide, by decide⟩

set_option maxRecDepth 40000 in
/-- Witness for C10 at the qualifier keyword `const`. -/
theorem c10_keywords_as_identifiers_witness :
    function (str "int const();") = .ok [] ⟨⟨[], str "int", 0⟩, str "const", []⟩ :=
  c10_keywords_as_identifiers.1 (str "const") (by decide)

set_option maxRecDepth 100000 in
/-- C6.  For every declaration whose return type is void at pointer depth 0,
the generated definition declares no `result` variable, its log format has no
`" = "` clause and no format arguments beyond the parameters, and there is no
return statement (the explicit right-hand side below omits exactly those three
pieces); in particular `void noop();` parses to the expected declaration and
its generated file logs exactly the line `noop()` with no substituted
values. -/
theorem c6_void_generation :
    (∀ (fn : Function) (out : List Char), is_void fn.return_type = true →
      get_definition fn out =
        get_signature fn false ++ str " \x7b\n"
        ++ (if out = str "-" then str "    FILE *output = stderr;\n"
            else str "    FILE *output = fopen(\"" ++ out ++ str "\", \"a\");\n")
        ++ str "    " ++ get_signature fn true ++ str " = dlsym(RTLD_NEXT, \""
        ++ fn.name ++ str "\");\n"
        ++ str "    " ++ str "original_" ++ fn.name ++ str "("
        ++ argNamesText fn.parameters ++ str ");\n"
        ++ str "    fprintf(output, \"" ++ fn.name ++ str "(" ++ fmtTokensText fn.parameters
        ++ str ")\\n" ++ str "\"" ++ (fn.parameters.map (fun p => str ", " ++ p.2)).flatten
        ++ str ");\n"
        ++ (if out = str "-" then [] else str "    fclose(output);\n")
        ++ str "\x7d\n") ∧
    function (str "void noop();") = .ok [] noopFn ∧
    transform_file (str "void noop();") ⟨str "-"⟩ =
      some (str "#define _GNU_SOURCE\n#include<dlfcn.h>\n#include<stdio.h>\n\nvoid noop() \x7b\n    FILE *output = stderr;\n    void (*original_noop)() = dlsym(RTLD_NEXT, \"noop\");\n    original_noop();\n    fprintf(output, \"noop()\\n\");\n\x7d\n") := by
  refine ⟨?_, by decide, by decide⟩
  intro fn out h
  simp [get_definition, log_format, log_args, h, List.append_assoc]

set_option maxRecDepth 100000 in
/-- Witness for C6 at the parsed `void noop();` declaration. -/
theorem c6_void_generation_witness :
    get_definition noopFn (str "-") =
      str "void noop() \x7b\n    FILE *output = stderr;\n    void (*original_noop)() = dlsym(RTLD_NEXT, \"noop\");\n    original_noop();\n    fprintf(output, \"noop()\\n\");\n\x7d\n" := by
  have h := c6_void_generation.1 noopFn (str "-") (by decide)
  exact h.trans (by decide)

/-! Character-class facts, used by the identifier-lexer proofs. -/

theorem digit_not_nd : ∀ c ∈ digitChars, c ∉ ndChars := by decide

theorem digit_ne_backslash : ∀ c ∈ digitChars, '\\' ≠ c := by decide

theorem backslash_not_nd : '\\' ∉ ndChars := by decide

theorem unitsChars_cons (u : IdUnit) (us : List IdUnit) :
    unitsChars (u :: us) = u.chars ++ unitsChars us := by
  simp [unitsChars]

theorem unitsChars_length_pos (u : IdUnit) : 0 < u.chars.length := by
  cases u <;> simp [IdUnit.chars]

/-! Parsing one identifier unit. -/

theorem ident_nd_unit (u : IdUnit) (hu : u.valid = true) (hnd : u.isDigitUnit = false)
    (t : List Char) : identifier_nondigit (u.chars ++ t) = .ok t u.chars := by
  cases u with
  | nd c =>
    have hc : c ∈ ndChars := by simpa [IdUnit.valid] using hu
    simp [IdUnit.chars, identifier_nondigit, orElseP, nondigit, mapP, one_of, hc]
  | dg c => simp [IdUnit.isDigitUnit] at hnd
  | escU a b c d =>
    have hx : ((a ∈ hexChars ∧ b ∈ hexChars) ∧ c ∈ hexChars) ∧ d ∈ hexChars := by
      simpa [IdUnit.valid] using hu
    obtain ⟨⟨⟨ha, hb⟩, hc⟩, hd⟩ := hx
    simp [IdUnit.chars, identifier_nondigit, orElseP, nondigit, mapP, one_of,
      backslash_not_nd, universal_character_name, bindP, pureP, hex_quad,
      hexadecimal_digit, ha, hb, hc, hd, tagP, tagAux,
      show str "\\u" = ['\\', 'u'] from rfl]
  | escBigU a b c d e f g h =>
    have hx : ((((((a ∈ hexChars ∧ b ∈ hexChars) ∧ c ∈ hexChars) ∧ d ∈ hexChars) ∧
        e ∈ hexChars) ∧ f ∈ hexChars) ∧ g ∈ hexChars) ∧ h ∈ hexChars := by
      simpa [IdUnit.valid] using hu
    obtain ⟨⟨⟨⟨⟨⟨⟨ha, hb⟩, hc⟩, hd⟩, he⟩, hf⟩, hg⟩, hh⟩ := hx
    simp [IdUnit.chars, identifier_nondigit, orElseP, nondigit, mapP, one_of,
      backslash_not_nd, universal_character_name, bindP, pureP, hex_quad,
      hexadecimal_digit, ha, hb, hc, hd, he, hf, hg, hh, tagP, tagAux,
      show str "\\u" = ['\\', 'u'] from rfl, show str "\\U" = ['\\', 'U'] from rfl]

theorem digit_unit (c : Char) (hc : c ∈ digitChars) (t : List Char) :
    (orElseP identifier_nondigit digit) (c :: t) = .ok t [c] := by
  have h1 : c ∉ ndChars := digit_not_nd c hc
  have h2 : '\\' ≠ c := digit_ne_backslash c hc
  simp [orElseP, identifier_nondigit, nondigit, mapP, one_of, h1,
    universal_character_name, bindP, digit, hc,
    show str "\\u" = ['\\', 'u'] from rfl, show str "\\U" = ['\\', 'U'] from rfl,
    tagP_head_ne h2]

theorem unit_parse (u : IdUnit) (hu : u.valid = true) (t : List Char) :
    (orElseP identifier_nondigit digit) (u.chars ++ t) = .ok t u.chars := by
  cases u with
  | dg c => exact digit_unit c (by simpa [IdUnit.valid] using hu) t
  | nd c =>
    have h := ident_nd_unit (.nd c) hu (by simp [IdUnit.isDigitUnit]) t
    simp [orElseP, h]
  | escU a b c d =>
    have h := ident_nd_unit (.escU a b c d) hu (by simp [IdUnit.isDigitUnit]) t
    simp [orElseP, h]
  | escBigU a b c d e f g h =>
    have hv := ident_nd_unit (.escBigU a b c d e f g h) hu (by simp [IdUnit.isDigitUnit]) t
    simp [orElseP, hv]

theorem altUnit_stop (hc : StopChar c) (r : List Char) :
    (orElseP identifier_nondigit digit) (c :: r) = .error := by
  obtain ⟨h1, h2, h3⟩ := hc
  simp [orElseP, identifier_nondigit, nondigit, mapP, one_of, h1,
    universal_character_name, bindP, digit, h2,
    show str "\\u" = ['\\', 'u'] from rfl, show str "\\U" = ['\\', 'U'] from rfl,
    tagP_head_ne (Ne.symm h3)]

theorem many0_units :
    ∀ us : List IdUnit, (∀ v ∈ us, v.valid = true) →
    ∀ (c : Char) (rest : List Char) (fuel : Nat), StopChar c →
      (unitsChars us).length < fuel →
      many0F (orElseP identifier_nondigit digit) fuel (unitsChars us ++ c :: rest)
        = .ok (c :: rest) (us.map IdUnit.chars) := by
  intro us
  induction us with
  | nil =>
    intro _ c rest fuel hc hf
    obtain ⟨f, rfl⟩ : ∃ f, fuel = f + 1 := ⟨fuel - 1, by omega⟩
    simp [unitsChars, many0F, altUnit_stop hc]
  | cons u us ih =>
    intro hv c rest fuel hc hf
    obtain ⟨f, rfl⟩ : ∃ f, fuel = f + 1 := ⟨fuel - 1, by omega⟩
    have hu : u.valid = true := hv u (by simp)
    have hus : ∀ v ∈ us, v.valid = true := fun v hvv => hv v (by simp [hvv])
    have hpos := unitsChars_length_pos u
    have hstep := unit_parse u hu (unitsChars us ++ c :: rest)
    have hlen : (unitsChars us ++ c :: rest).length < (u.chars ++ (unitsChars us ++ c :: rest)).length := by
      simp [List.length_append]
      omega
    have hrec : (unitsChars us).length < f := by
      have := hf
      simp [unitsChars_cons, List.length_append] at this
      omega
    have hne : u.chars ≠ [] := List.length_pos.mp hpos
    rw [unitsChars_cons, List.append_assoc]
    simp [many0F, hstep, hlen, hne, ih hus c rest f hc hrec]

theorem identifier_units (u : IdUnit) (us : List IdUnit) (c : Char) (rest : List Char)
    (hu : u.valid = true) (hus : ∀ v ∈ us, v.valid = true)
    (hnd : u.isDigitUnit = false) (hc : StopChar c) :
    identifier (u.chars ++ unitsChars us ++ c :: rest)
      = .ok (c :: rest) (u.chars ++ unitsChars us) := by
  have h1 := ident_nd_unit u hu hnd (unitsChars us ++ c :: rest)
  have h2 : many0 (orElseP identifier_nondigit digit) (unitsChars us ++ c :: rest)
      = .ok (c :: rest) (us.map IdUnit.chars) := by
    apply many0_units us hus c rest _ hc
    simp only [List.length_append, List.length_cons]
    omega
  simp only [unitsChars] at h1 h2 ⊢
  simp [identifier, bindP, List.append_assoc, h1, h2, pureP]

theorem identifier_digit_start (d : Char) (rest : List Char) (hd : d ∈ digitChars) :
    identifier (d :: rest) = .error := by
  have h1 : d ∉ ndChars := digit_not_nd d hd
  have h2 : '\\' ≠ d := digit_ne_backslash d hd
  simp [identifier, bindP, identifier_nondigit, orElseP, nondigit, mapP, one_of, h1,
    universal_character_name,
    show str "\\u" = ['\\', 'u'] from rfl, show str "\\U" = ['\\', 'U'] from rfl,
    tagP_head_ne h2]

/-- C9.  For every input built from a valid identifier unit (letter,
underscore or well-formed escape, not a digit) followed by further valid units
and then a character of neither identifier class, the lexer consumes exactly
the units as one token and stops at that character; an input beginning with a
digit is never accepted as an identifier. -/
theorem c9_identifier_lexer :
    (∀ (u : IdUnit) (us : List IdUnit) (c : Char) (rest : List Char),
      u.valid = true → (∀ v ∈ us, v.valid = true) → u.isDigitUnit = false → StopChar c →
      identifier (u.chars ++ unitsChars us ++ c :: rest)
        = .ok (c :: rest) (u.chars ++ unitsChars us)) ∧
    ∀ (d : Char) (rest : List Char), d ∈ digitChars → identifier (d :: rest) = .error :=
  ⟨fun u us c rest hu hus hnd hc => identifier_units u us c rest hu hus hnd hc,
   fun d rest hd => identifier_digit_start d rest hd⟩

/-- Witness for C9: the maximal token of `a1ጷ+` is `a1ጷ`, stopping
at `+`, and `5abc` is rejected. -/
theorem c9_identifier_lexer_witness :
    identifier (str "a1\\u1337+") = .ok (str "+") (str "a1\\u1337") ∧
    identifier (str "5abc") = .error := by
  constructor
  · exact c9_identifier_lexer.1 (.nd 'a') [.dg '1', .escU '1' '3' '3' '7'] '+' []
      (by decide) (by decide) (by decide) ⟨by decide, by decide, by decide⟩
  · exact c9_identifier_lexer.2 '5' (str "abc") (by decide)

/-! Names accepted as single identifier tokens. -/

theorem goodName_of_units (u : IdUnit) (us : List IdUnit)
    (hu : u.valid = true) (hus : ∀ v ∈ us, v.valid = true) (hnd : u.isDigitUnit = false) :
    GoodName (u.chars ++ unitsChars us) := by
  constructor
  · cases u with
    | nd c =>
      exact ⟨c, unitsChars us, by simp [IdUnit.chars], Or.inl (by simpa [IdUnit.valid] using hu)⟩
    | dg c => simp [IdUnit.isDigitUnit] at hnd
    | escU a b c d =>
      exact ⟨'\\', 'u' :: a :: b :: c :: d :: unitsChars us, by simp [IdUnit.chars], Or.inr rfl⟩
    | escBigU a b c d e f g h =>
      exact ⟨'\\', 'U' :: a :: b :: c :: d :: e :: f :: g :: h :: unitsChars us,
        by simp [IdUnit.chars], Or.inr rfl⟩
  · intro c rest hc
    simpa [List.append_assoc] using identifier_units u us c rest hu hus hnd hc

/-! Whole-token matching of specifiers (C3). -/

theorem nd_not_ws : ∀ c ∈ ndChars, isWsChar c = false := by decide

theorem dg_not_ws : ∀ c ∈ digitChars, isWsChar c = false := by decide

theorem nd_ne_star : ∀ c ∈ ndChars, '*' ≠ c := by decide

theorem dg_ne_star : ∀ c ∈ digitChars, '*' ≠ c := by decide

theorem nd_or_digit_not_ws (h : c ∈ ndChars ∨ c ∈ digitChars) : isWsChar c = false := by
  rcases h with h | h
  · exact nd_not_ws c h
  · exact dg_not_ws c h

theorem nd_or_digit_ne_star (h : c ∈ ndChars ∨ c ∈ digitChars) : '*' ≠ c := by
  rcases h with h | h
  · exact nd_ne_star c h
  · exact dg_ne_star c h

theorem star_many0_stop (hc : '*' ≠ c) (r : List Char) :
    many0 (valueP () (tagP (str "*"))) (c :: r) = .ok (c :: r) [] := by
  apply many0_error_head
  simp [valueP, mapP, show str "*" = ['*'] from rfl, tagP_head_ne hc]

theorem parse_type_concrete (kw : List Char) (c : Char) (r : List Char)
    (hq : terminatedP qualifier_alt multispace (kw ++ c :: r) = .error)
    (hsp0 : sp (kw ++ c :: r) = .ok (kw ++ c :: r) [])
    (hspec : specifier_alt (kw ++ c :: r) = .ok (c :: r) kw)
    (hws : isWsChar c = false) (hstar : '*' ≠ c) :
    parse_type (kw ++ c :: r) = .ok (c :: r) ⟨[], kw, 0⟩ := by
  have h1 := many0_error_head hq
  simp [parse_type, bindP, h1, hsp0, hspec, sp_nws hws, star_many0_stop hstar, pureP]

/-- Prefix recognition of specifier keywords: an input continuing a keyword of
the fixed set with any identifier character is recognised as that keyword,
the identifier characters being left unconsumed. -/
theorem specifier_prefix_recognised :
    ∀ kw ∈ specSet, ∀ (c : Char) (r : List Char), c ∈ ndChars ∨ c ∈ digitChars →
      parse_type (kw ++ c :: r) = .ok (c :: r) ⟨[], kw, 0⟩ := by
  intro kw hkw c r hc
  have hws := nd_or_digit_not_ws hc
  have hstar := nd_or_digit_ne_star hc
  have hmem : kw = str "void" ∨ kw = str "char" ∨ kw = str "short" ∨ kw = str "int" ∨
      kw = str "long" ∨ kw = str "float" ∨ kw = str "double" ∨ kw = str "signed" ∨
      kw = str "unsigned" ∨ kw = str "_Bool" ∨ kw = str "_Complex" ∨ kw = str "size_t" := by
    simpa [specSet] using hkw
  rcases hmem with rfl | rfl | rfl | rfl | rfl | rfl | rfl | rfl | rfl | rfl | rfl | rfl
  · refine parse_type_concrete _ c r rfl rfl ?_ hws hstar
    simp [specifier_alt, orElseP, tagP_append]
  · refine parse_type_concrete _ c r rfl rfl ?_ hws hstar
    simp [specifier_alt, orElseP, tagP_append,
      show tagP (str "void") (str "char" ++ c :: r) = .error from rfl]
  · refine parse_type_concrete _ c r rfl rfl ?_ hws hstar
    simp [specifier_alt, orElseP, tagP_append,
      show tagP (str "void") (str "short" ++ c :: r) = .error from rfl,
      show tagP (str "char") (str "short" ++ c :: r) = .error from rfl]
  · refine parse_type_concrete _ c r rfl rfl ?_ hws hstar
    simp [specifier_alt, orElseP, tagP_append,
      show tagP (str "void") (str "int" ++ c :: r) = .error from rfl,
      show tagP (str "char") (str "int" ++ c :: r) = .error from rfl,
      show tagP (str "short") (str "int" ++ c :: r) = .error from rfl]
  · refine parse_type_concrete _ c r rfl rfl ?_ hws hstar
    simp [specifier_alt, orElseP, tagP_append,
      show tagP (str "void") (str "long" ++ c :: r) = .error from rfl,
      show tagP (str "char") (str "long" ++ c :: r) = .error from rfl,
      show tagP (str "short") (str "long" ++ c :: r) = .error from rfl,
      show tagP (str "int") (str "long" ++ c :: r) = .error from rfl]
  · refine parse_type_concrete _ c r rfl rfl ?_ hws hstar
    simp [specifier_alt, orElseP, tagP_append,
      show tagP (str "void") (str "float" ++ c :: r) = .error from rfl,
      show tagP (str "char") (str "float" ++ c :: r) = .error from rfl,
      show tagP (str "short") (str "float" ++ c :: r) = .error from rfl,
      show tagP (str "int") (str "float" ++ c :: r) = .error from rfl,
      show tagP (str "long") (str "float" ++ c :: r) = .error from rfl]
  · refine parse_type_concrete _ c r rfl rfl ?_ hws hstar
    simp [specifier_alt, orElseP, tagP_append,
      show tagP (str "void") (str "double" ++ c :: r) = .error from rfl,
      show tagP (str "char") (str "double" ++ c :: r) = .error from rfl,
      show tagP (str "short") (str "double" ++ c :: r) = .error from rfl,
      show tagP (str "int") (str "double" ++ c :: r) = .error from rfl,
      show tagP (str "long") (str "double" ++ c :: r) = .error from rfl,
      show tagP (str "float") (str "double" ++ c :: r) = .error from rfl]
  · refine parse_type_concrete _ c r rfl rfl ?_ hws hstar
    simp [specifier_alt, orElseP, tagP_append,
      show tagP (str "void") (str "signed" ++ c :: r) = .error from rfl,
      show tagP (str "char") (str "signed" ++ c :: r) = .error from rfl,
      show tagP (str "short") (str "signed" ++ c :: r) = .error from rfl,
      show tagP (str "int") (str "signed" ++ c :: r) = .error from rfl,
      show tagP (str "long") (str "signed" ++ c :: r) = .error from rfl,
      show tagP (str "float") (str "signed" ++ c :: r) = .error from rfl,
      show tagP (str "double") (str "signed" ++ c :: r) = .error from rfl]
  · refine parse_type_concrete _ c r rfl rfl ?_ hws hstar
    simp [specifier_alt, orElseP, tagP_append,
      show tagP (str "void") (str "unsigned" ++ c :: r) = .error from rfl,
      show tagP (str "char") (str "unsigned" ++ c :: r) = .error from rfl,
      show tagP (str "short") (str "unsigned" ++ c :: r) = .error from rfl,
      show tagP (str "int") (str "unsigned" ++ c :: r) = .error from rfl,
      show tagP (str "long") (str "unsigned" ++ c :: r) = .error from rfl,
      show tagP (str "float") (str "unsigned" ++ c :: r) = .error from rfl,
      show tagP (str "double") (str "unsigned" ++ c :: r) = .error from rfl,
      show tagP (str "signed") (str "unsigned" ++ c :: r) = .error from rfl]
  · refine parse_type_concrete _ c r rfl rfl ?_ hws hstar
    simp [specifier_alt, orElseP, tagP_append,
      show tagP (str "void") (str "_Bool" ++ c :: r) = .error from rfl,
      show tagP (str "char") (str "_Bool" ++ c :: r) = .error from rfl,
      show tagP (str "short") (str "_Bool" ++ c :: r) = .error from rfl,
      show tagP (str "int") (str "_Bool" ++ c :: r) = .error from rfl,
      show tagP (str "long") (str "_Bool" ++ c :: r) = .error from rfl,
      show tagP (str "float") (str "_Bool" ++ c :: r) = .error from rfl,
      show tagP (str "double") (str "_Bool" ++ c :: r) = .error from rfl,
      show tagP (str "signed") (str "_Bool" ++ c :: r) = .error from rfl,
      show tagP (str "unsigned") (str "_Bool" ++ c :: r) = .error from rfl]
  · refine parse_type_concrete _ c r rfl rfl ?_ hws hstar
    simp [specifier_alt, orElseP, tagP_append,
      show tagP (str "void") (str "_Complex" ++ c :: r) = .error from rfl,
      show tagP (str "char") (str "_Complex" ++ c :: r) = .error from rfl,
      show tagP (str "short") (str "_Complex" ++ c :: r) = .error from rfl,
      show tagP (str "int") (str "_Complex" ++ c :: r) = .error from rfl,
      show tagP (str "long") (str "_Complex" ++ c :: r) = .error from rfl,
      show tagP (str "float") (str "_Complex" ++ c :: r) = .error from rfl,
      show tagP (str "double") (str "_Complex" ++ c :: r) = .error from rfl,
      show tagP (str "signed") (str "_Complex" ++ c :: r) = .error from rfl,
      show tagP (str "unsigned") (str "_Complex" ++ c :: r) = .error from rfl,
      show tagP (str "_Bool") (str "_Complex" ++ c :: r) = .error from rfl]
  · refine parse_type_concrete _ c r rfl rfl ?_ hws hstar
    simp [specifier_alt, orElseP, tagP_append,
      show tagP (str "void") (str "size_t" ++ c :: r) = .error from rfl,
      show tagP (str "char") (str "size_t" ++ c :: r) = .error from rfl,
      show tagP (str "short") (str "size_t" ++ c :: r) = .error from rfl,
      show tagP (str "int") (str "size_t" ++ c :: r) = .error from rfl,
      show tagP (str "long") (str "size_t" ++ c :: r) = .error from rfl,
      show tagP (str "float") (str "size_t" ++ c :: r) = .error from rfl,
      show tagP (str "double") (str "size_t" ++ c :: r) = .error from rfl,
      show tagP (str "signed") (str "size_t" ++ c :: r) = .error from rfl,
      show tagP (str "unsigned") (str "size_t" ++ c :: r) = .error from rfl,
      show tagP (str "_Bool") (str "size_t" ++ c :: r) = .error from rfl,
      show tagP (str "_Complex") (str "size_t" ++ c :: r) = .error from rfl]

theorem tagAux_error_of (h1 : ¬ t <+: i) (h2 : ¬ i <+: t) : tagAux t i = .error := by
  induction t generalizing i with
  | nil => exact absurd ⟨i, rfl⟩ h1
  | cons a t ih =>
    cases i with
    | nil => exact absurd ⟨a :: t, rfl⟩ h2
    | cons b i2 =>
      by_cases hab : a = b
      · subst hab
        have h1a : ¬ t <+: i2 := by
          intro hp
          obtain ⟨q, hq⟩ := hp
          exact h1 ⟨q, by simp [hq]⟩
        have h2a : ¬ i2 <+: t := by
          intro hp
          obtain ⟨q, hq⟩ := hp
          exact h2 ⟨q, by simp [hq]⟩
        simpa [tagAux] using ih h1a h2a
      · simp [tagAux, hab]

theorem tagP_error_of (h1 : ¬ t <+: i) (h2 : ¬ i <+: t) : tagP t i = .error := by
  simp [tagP, tagAux_error_of h1 h2]

theorem specifier_alt_error_of (h1 : ∀ kw ∈ specSet, ¬ kw <+: i)
    (h2 : ∀ kw ∈ specSet, ¬ i <+: kw) : specifier_alt i = .error := by
  simp [specifier_alt, orElseP,
    tagP_error_of (h1 (str "void") (by decide)) (h2 (str "void") (by decide)),
    tagP_error_of (h1 (str "char") (by decide)) (h2 (str "char") (by decide)),
    tagP_error_of (h1 (str "short") (by decide)) (h2 (str "short") (by decide)),
    tagP_error_of (h1 (str "int") (by decide)) (h2 (str "int") (by decide)),
    tagP_error_of (h1 (str "long") (by decide)) (h2 (str "long") (by decide)),
    tagP_error_of (h1 (str "float") (by decide)) (h2 (str "float") (by decide)),
    tagP_error_of (h1 (str "double") (by decide)) (h2 (str "double") (by decide)),
    tagP_error_of (h1 (str "signed") (by decide)) (h2 (str "signed") (by decide)),
    tagP_error_of (h1 (str "unsigned") (by decide)) (h2 (str "unsigned") (by decide)),
    tagP_error_of (h1 (str "_Bool") (by decide)) (h2 (str "_Bool") (by decide)),
    tagP_error_of (h1 (str "_Complex") (by decide)) (h2 (str "_Complex") (by decide)),
    tagP_error_of (h1 (str "size_t") (by decide)) (h2 (str "size_t") (by decide))]

theorem qualifier_alt_error_of (h1 : ∀ kw ∈ keywordSet, ¬ kw <+: i)
    (h2 : ∀ kw ∈ keywordSet, ¬ i <+: kw) : qualifier_alt i = .error := by
  simp [qualifier_alt, orElseP, valueP, mapP,
    tagP_error_of (h1 (str "const") (by decide)) (h2 (str "const") (by decide)),
    tagP_error_of (h1 (str "restrict") (by decide)) (h2 (str "restrict") (by decide)),
    tagP_error_of (h1 (str "volatile") (by decide)) (h2 (str "volatile") (by decide)),
    tagP_error_of (h1 (str "_Atomic") (by decide)) (h2 (str "_Atomic") (by decide))]

theorem parse_type_no_keyword (hws : isWsChar c = false)
    (h1 : ∀ kw ∈ keywordSet, ¬ kw <+: c :: r) (h2 : ∀ kw ∈ keywordSet, ¬ (c :: r) <+: kw) :
    parse_type (c :: r) = .error := by
  have hq := qualifier_alt_error_of h1 h2
  have hterm : terminatedP qualifier_alt multispace (c :: r) = .error := by
    simp [terminatedP, bindP, hq]
  have hspec : specifier_alt (c :: r) = .error :=
    specifier_alt_error_of (fun kw hkw => h1 kw (List.mem_append_left _ hkw))
      (fun kw hkw => h2 kw (List.mem_append_left _ hkw))
  simp [parse_type, bindP, many0_error_head hterm, sp_nws hws, hspec]

/-- C3, amended.  Specifier keywords are matched as prefixes, not whole
tokens: an input continuing a keyword of the fixed set with any identifier
character is still recognised as that keyword, the identifier characters being
left unconsumed; and when no keyword (specifier or qualifier) occurs as a
prefix at the position, the parse is a hard error — both for the specifier
alternative itself and for the whole type parser — unless the buffer ends
inside a keyword, in which case the parser reports `Incomplete` instead (see
the counterexample). -/
theorem c3_specifier_prefix_amended :
    (∀ kw ∈ specSet, ∀ (c : Char) (r : List Char), c ∈ ndChars ∨ c ∈ digitChars →
        parse_type (kw ++ c :: r) = .ok (c :: r) ⟨[], kw, 0⟩) ∧
    (∀ i : List Char, (∀ kw ∈ specSet, ¬ kw <+: i) → (∀ kw ∈ specSet, ¬ i <+: kw) →
        specifier_alt i = .error) ∧
    (∀ (c : Char) (r : List Char), isWsChar c = false →
        (∀ kw ∈ keywordSet, ¬ kw <+: c :: r) → (∀ kw ∈ keywordSet, ¬ (c :: r) <+: kw) →
        parse_type (c :: r) = .error) :=
  ⟨specifier_prefix_recognised,
   fun _ h1 h2 => specifier_alt_error_of h1 h2,
   fun _ _ hws h1 h2 => parse_type_no_keyword hws h1 h2⟩

set_option maxRecDepth 40000 in
/-- Witness for C3 (amended): `doublex` is recognised as the specifier
`double` followed by the unconsumed identifier character `x`, while `foo` —
no keyword occurring as a prefix — is a hard error at the specifier
alternative, and `foo();` a hard error for the whole type parser. -/
theorem c3_specifier_prefix_amended_witness :
    parse_type (str "doublex") = .ok (str "x") ⟨[], str "double", 0⟩ ∧
    specifier_alt (str "foo") = .error ∧
    parse_type (str "foo();") = .error :=
  ⟨c3_specifier_prefix_amended.1 (str "double") (by decide) 'x' [] (Or.inl (by decide)),
   c3_specifier_prefix_amended.2.1 (str "foo") (by decide) (by decide),
   c3_specifier_prefix_amended.2.2 'f' (str "oo();") (by decide) (by decide) (by decide)⟩

/-! Inversion lemmas for the combinators, used to derive invariants of parsed
declarations. -/

theorem bindP_ok (h : bindP p f i = .ok r v) :
    ∃ r1 v1, p i = .ok r1 v1 ∧ f v1 r1 = .ok r v := by
  unfold bindP at h
  cases hp : p i with
  | ok r1 v1 => exact ⟨r1, v1, rfl, by rw [hp] at h; exact h⟩
  | error => rw [hp] at h; exact absurd h (by simp)
  | incomplete => rw [hp] at h; exact absurd h (by simp)

theorem pureP_ok (h : pureP a i = PResult.ok r v) : r = i ∧ v = a := by
  simp [pureP] at h
  exact ⟨h.1.symm, h.2.symm⟩

theorem orElseP_ok (h : orElseP p q i = .ok r v) : p i = .ok r v ∨ q i = .ok r v := by
  unfold orElseP at h
  cases hp : p i with
  | ok r1 v1 => rw [hp] at h; exact Or.inl h
  | error => rw [hp] at h; exact Or.inr h
  | incomplete => rw [hp] at h; exact absurd h (by simp)

theorem tagP_ok_val (h : tagP t i = .ok r v) : v = t := by
  unfold tagP at h
  cases ha : tagAux t i <;> rw [ha] at h <;> simp at h
  exact h.2.symm

theorem specifier_alt_mem (h : specifier_alt i = .ok r v) : v ∈ specSet := by
  unfold specifier_alt at h
  rcases orElseP_ok h with h1 | h
  · rw [tagP_ok_val h1]; decide
  rcases orElseP_ok h with h1 | h
  · rw [tagP_ok_val h1]; decide
  rcases orElseP_ok h with h1 | h
  · rw [tagP_ok_val h1]; decide
  rcases orElseP_ok h with h1 | h
  · rw [tagP_ok_val h1]; decide
  rcases orElseP_ok h with h1 | h
  · rw [tagP_ok_val h1]; decide
  rcases orElseP_ok h with h1 | h
  · rw [tagP_ok_val h1]; decide
  rcases orElseP_ok h with h1 | h
  · rw [tagP_ok_val h1]; decide
  rcases orElseP_ok h with h1 | h
  · rw [tagP_ok_val h1]; decide
  rcases orElseP_ok h with h1 | h
  · rw [tagP_ok_val h1]; decide
  rcases orElseP_ok h with h1 | h
  · rw [tagP_ok_val h1]; decide
  rcases orElseP_ok h with h1 | h
  · rw [tagP_ok_val h1]; decide
  rw [tagP_ok_val h]; decide

theorem parse_type_spec (h : parse_type i = .ok r t) : t.specifier ∈ specSet := by
  unfold parse_type at h
  obtain ⟨r1, v1, h1, h⟩ := bindP_ok h
  obtain ⟨r2, v2, h2, h⟩ := bindP_ok h
  obtain ⟨r3, v3, h3, h⟩ := bindP_ok h
  obtain ⟨r4, v4, h4, h⟩ := bindP_ok h
  obtain ⟨r5, v5, h5, h⟩ := bindP_ok h
  obtain ⟨hr, hv⟩ := pureP_ok h
  subst hv
  exact specifier_alt_mem h3

theorem function_spec (h : function i = .ok r fn) : fn.return_type.specifier ∈ specSet := by
  unfold function at h
  obtain ⟨r1, rt, h1, h⟩ := bindP_ok h
  obtain ⟨r2, v2, h2, h⟩ := bindP_ok h
  obtain ⟨r3, v3, h3, h⟩ := bindP_ok h
  obtain ⟨r4, v4, h4, h⟩ := bindP_ok h
  obtain ⟨r5, v5, h5, h⟩ := bindP_ok h
  obtain ⟨r6, v6, h6, h⟩ := bindP_ok h
  obtain ⟨r7, v7, h7, h⟩ := bindP_ok h
  obtain ⟨r8, v8, h8, h⟩ := bindP_ok h
  obtain ⟨r9, v9, h9, h⟩ := bindP_ok h
  obtain ⟨hr, hv⟩ := pureP_ok h
  subst hv
  exact parse_type_spec h1

theorem parseAllF_spec :
    ∀ (fuel : Nat) (i : List Char) (fs : List Function), parseAllF fuel i = some fs →
      ∀ f ∈ fs, f.return_type.specifier ∈ specSet := by
  intro fuel
  induction fuel with
  | zero => intro i fs h; simp [parseAllF] at h
  | succ n ih =>
    intro i fs h
    simp only [parseAllF] at h
    cases hf : function i with
    | incomplete =>
      rw [hf] at h
      simp at h
      subst h
      simp
    | error => rw [hf] at h; simp at h
    | ok rest fn =>
      rw [hf] at h
      by_cases hl : rest.length < i.length
      · simp only [if_pos hl] at h
        cases hp : parseAllF n rest with
        | none => rw [hp] at h; simp at h
        | some fs2 =>
          rw [hp] at h
          simp at h
          subst h
          intro f hmem
          rcases List.mem_cons.mp hmem with rfl | hmem2
          · exact function_spec hf
          · exact ih rest fs2 hp f hmem2
      · simp only [if_neg hl] at h; simp at h

/-! Shape of a generated definition: it never starts with a newline and always
ends with a closing brace and a newline. -/

theorem spec_head_facts : ∀ s ∈ specSet, s ≠ [] ∧ s.head? ≠ some '\n' := by decide

theorem head?_append_some (h : x.head? = some d) (y : List Char) : (x ++ y).head? = some d := by
  cases x <;> simp_all

theorem displayType_head (hs : t.specifier ∈ specSet) :
    ∃ d, (displayType t).head? = some d ∧ d ≠ '\n' := by
  obtain ⟨t_qs, t_spec, t_ptr⟩ := t
  cases t_qs with
  | nil =>
    obtain ⟨hne, hh⟩ := spec_head_facts t_spec hs
    cases hsp : t_spec with
    | nil => exact absurd hsp hne
    | cons d l =>
      rw [hsp] at hh
      simp at hh
      refine ⟨d, ?_, hh⟩
      simp only [displayType, List.map_nil, List.flatten_nil, List.nil_append, hsp,
        List.append_assoc]
      exact head?_append_some (by simp) _
  | cons q qs =>
    cases q with
    | Const =>
      refine ⟨'c', ?_, by decide⟩
      simp only [displayType, List.map_cons, List.flatten_cons, List.append_assoc]
      exact head?_append_some (by simp [displayQualifier, show str "const" = ['c', 'o', 'n', 's', 't'] from rfl]) _
    | Restrict =>
      refine ⟨'r', ?_, by decide⟩
      simp only [displayType, List.map_cons, List.flatten_cons, List.append_assoc]
      exact head?_append_some
        (by simp [displayQualifier, show str "restrict" = ['r', 'e', 's', 't', 'r', 'i', 'c', 't'] from rfl]) _
    | Volatile =>
      refine ⟨'v', ?_, by decide⟩
      simp only [displayType, List.map_cons, List.flatten_cons, List.append_assoc]
      exact head?_append_some
        (by simp [displayQualifier, show str "volatile" = ['v', 'o', 'l', 'a', 't', 'i', 'l', 'e'] from rfl]) _
    | Atomic =>
      refine ⟨'_', ?_, by decide⟩
      simp only [displayType, List.map_cons, List.flatten_cons, List.append_assoc]
      exact head?_append_some
        (by simp [displayQualifier, show str "_Atomic" = ['_', 'A', 't', 'o', 'm', 'i', 'c'] from rfl]) _

theorem signature_head (hs : fn.return_type.specifier ∈ specSet) :
    ∃ d, (get_signature fn false).head? = some d ∧ d ≠ '\n' := by
  obtain ⟨d, hd, hne⟩ := displayType_head hs
  refine ⟨d, ?_, hne⟩
  simp only [get_signature, List.append_assoc]
  by_cases hp : fn.return_type.pointer > 0
  · rw [if_pos hp]
    exact head?_append_some hd _
  · rw [if_neg hp]
    simp only [List.append_assoc]
    exact head?_append_some hd _

theorem definition_head (hs : fn.return_type.specifier ∈ specSet) (out : List Char) :
    ∃ d, (get_definition fn out).head? = some d ∧ d ≠ '\n' := by
  obtain ⟨d, hd, hne⟩ := signature_head hs
  refine ⟨d, ?_, hne⟩
  simp only [get_definition, List.append_assoc]
  exact head?_append_some hd _

theorem definition_suffix (fn : Function) (out : List Char) :
    str "\x7d\n" <:+ get_definition fn out := by
  unfold get_definition
  exact List.suffix_append _ _

/-- C7.  Whenever the transformation succeeds, the output is exactly the
`_GNU_SOURCE` define, the `dlfcn.h` include and the `stdio.h` include,
followed, for each parsed declaration in input order, by one newline and that
declaration's interceptor definition; every definition starts with a
non-newline character and ends with a closing brace and newline, so
consecutive definitions are separated by exactly one blank line. -/
theorem c7_output_assembly :
    ∀ (s : List Char) (cfg : Config) (out : List Char), transform_file s cfg = some out →
      ∃ fs, parseAll s = some fs ∧
        out = headersText ++ (fs.map (fun f => '\n' :: get_definition f cfg.debug_output)).flatten ∧
        ∀ f ∈ fs, (∃ d, (get_definition f cfg.debug_output).head? = some d ∧ d ≠ '\n') ∧
          str "\x7d\n" <:+ get_definition f cfg.debug_output := by
  intro s cfg out h
  unfold transform_file at h
  cases hp : parseAll s with
  | none => rw [hp] at h; exact absurd h (by simp)
  | some fs =>
    rw [hp] at h
    simp at h
    refine ⟨fs, rfl, h.symm, ?_⟩
    intro f hf
    have hspec : f.return_type.specifier ∈ specSet := parseAllF_spec _ _ _ hp f hf
    exact ⟨definition_head hspec _, definition_suffix f _⟩

set_option maxRecDepth 400000 in
/-- Witness for C7: two back-to-back declarations produce the headers and two
definitions, in order, each preceded by one newline. -/
theorem c7_output_assembly_witness :
    ∃ fs, parseAll (str "void a();void b();") = some fs ∧
      str "#define _GNU_SOURCE\n#include<dlfcn.h>\n#include<stdio.h>\n\nvoid a() \x7b\n    FILE *output = stderr;\n    void (*original_a)() = dlsym(RTLD_NEXT, \"a\");\n    original_a();\n    fprintf(output, \"a()\\n\");\n\x7d\n\nvoid b() \x7b\n    FILE *output = stderr;\n    void (*original_b)() = dlsym(RTLD_NEXT, \"b\");\n    original_b();\n    fprintf(output, \"b()\\n\");\n\x7d\n"
        = headersText ++ (fs.map (fun f => '\n' :: get_definition f (⟨str "-"⟩ : Config).debug_output)).flatten ∧
      ∀ f ∈ fs, (∃ d, (get_definition f (⟨str "-"⟩ : Config).debug_output).head? = some d ∧ d ≠ '\n') ∧
        str "\x7d\n" <:+ get_definition f (⟨str "-"⟩ : Config).debug_output :=
  c7_output_assembly (str "void a();void b();") ⟨str "-"⟩ _ (by decide)

/-! Round-trip machinery (C8): re-parsing rendered signatures. -/

theorem specSet_cases (hs : s ∈ specSet) :
    s = str "void" ∨ s = str "char" ∨ s = str "short" ∨ s = str "int" ∨ s = str "long" ∨
    s = str "float" ∨ s = str "double" ∨ s = str "signed" ∨ s = str "unsigned" ∨
    s = str "_Bool" ∨ s = str "_Complex" ∨ s = str "size_t" := by
  simpa [specSet] using hs

theorem qual_alt_spec_error (hs : s ∈ specSet) (y : List Char) :
    qualifier_alt (s ++ y) = .error := by
  rcases specSet_cases hs with rfl | rfl | rfl | rfl | rfl | rfl | rfl | rfl | rfl | rfl | rfl | rfl <;>
    rfl

theorem qualifier_alt_self (q : TypeQualifier) (t : List Char) :
    qualifier_alt (displayQualifier q ++ t) = .ok t q := by
  cases q with
  | Const => simp [qualifier_alt, displayQualifier, orElseP, valueP, mapP, tagP_append]
  | Restrict =>
    simp [qualifier_alt, displayQualifier, orElseP, valueP, mapP, tagP_append,
      show tagP (str "const") (str "restrict" ++ t) = .error from rfl]
  | Volatile =>
    simp [qualifier_alt, displayQualifier, orElseP, valueP, mapP, tagP_append,
      show tagP (str "const") (str "volatile" ++ t) = .error from rfl,
      show tagP (str "restrict") (str "volatile" ++ t) = .error from rfl]
  | Atomic =>
    simp [qualifier_alt, displayQualifier, orElseP, valueP, mapP, tagP_append,
      show tagP (str "const") (str "_Atomic" ++ t) = .error from rfl,
      show tagP (str "restrict") (str "_Atomic" ++ t) = .error from rfl,
      show tagP (str "volatile") (str "_Atomic" ++ t) = .error from rfl]

theorem specifier_alt_self (hs : s ∈ specSet) (y : List Char) :
    specifier_alt (s ++ y) = .ok y s := by
  rcases specSet_cases hs with rfl | rfl | rfl | rfl | rfl | rfl | rfl | rfl | rfl | rfl | rfl | rfl
  · simp [specifier_alt, orElseP, tagP_append]
  · simp [specifier_alt, orElseP, tagP_append,
      show tagP (str "void") (str "char" ++ y) = .error from rfl]
  · simp [specifier_alt, orElseP, tagP_append,
      show tagP (str "void") (str "short" ++ y) = .error from rfl,
      show tagP (str "char") (str "short" ++ y) = .error from rfl]
  · simp [specifier_alt, orElseP, tagP_append,
      show tagP (str "void") (str "int" ++ y) = .error from rfl,
      show tagP (str "char") (str "int" ++ y) = .error from rfl,
      show tagP (str "short") (str "int" ++ y) = .error from rfl]
  · simp [specifier_alt, orElseP, tagP_append,
      show tagP (str "void") (str "long" ++ y) = .error from rfl,
      show tagP (str "char") (str "long" ++ y) = .error from rfl,
      show tagP (str "short") (str "long" ++ y) = .error from rfl,
      show tagP (str "int") (str "long" ++ y) = .error from rfl]
  · simp [specifier_alt, orElseP, tagP_append,
      show tagP (str "void") (str "float" ++ y) = .error from rfl,
      show tagP (str "char") (str "float" ++ y) = .error from rfl,
      show tagP (str "short") (str "float" ++ y) = .error from rfl,
      show tagP (str "int") (str "float" ++ y) = .error from rfl,
      show tagP (str "long") (str "float" ++ y) = .error from rfl]
  · simp [specifier_alt, orElseP, tagP_append,
      show tagP (str "void") (str "double" ++ y) = .error from rfl,
      show tagP (str "char") (str "double" ++ y) = .error from rfl,
      show tagP (str "short") (str "double" ++ y) = .error from rfl,
      show tagP (str "int") (str "double" ++ y) = .error from rfl,
      show tagP (str "long") (str "double" ++ y) = .error from rfl,
      show tagP (str "float") (str "double" ++ y) = .error from rfl]
  · simp [specifier_alt, orElseP, tagP_append,
      show tagP (str "void") (str "signed" ++ y) = .error from rfl,
      show tagP (str "char") (str "signed" ++ y) = .error from rfl,
      show tagP (str "short") (str "signed" ++ y) = .error from rfl,
      show tagP (str "int") (str "signed" ++ y) = .error from rfl,
      show tagP (str "long") (str "signed" ++ y) = .error from rfl,
      show tagP (str "float") (str "signed" ++ y) = .error from rfl,
      show tagP (str "double") (str "signed" ++ y) = .error from rfl]
  · simp [specifier_alt, orElseP, tagP_append,
      show tagP (str "void") (str "unsigned" ++ y) = .error from rfl,
      show tagP (str "char") (str "unsigned" ++ y) = .error from rfl,
      show tagP (str "short") (str "unsigned" ++ y) = .error from rfl,
      show tagP (str "int") (str "unsigned" ++ y) = .error from rfl,
      show tagP (str "long") (str "unsigned" ++ y) = .error from rfl,
      show tagP (str "float") (str "unsigned" ++ y) = .error from rfl,
      show tagP (str "double") (str "unsigned" ++ y) = .error from rfl,
      show tagP (str "signed") (str "unsigned" ++ y) = .error from rfl]
  · simp [specifier_alt, orElseP, tagP_append,
      show tagP (str "void") (str "_Bool" ++ y) = .error from rfl,
      show tagP (str "char") (str "_Bool" ++ y) = .error from rfl,
      show tagP (str "short") (str "_Bool" ++ y) = .error from rfl,
      show tagP (str "int") (str "_Bool" ++ y) = .error from rfl,
      show tagP (str "long") (str "_Bool" ++ y) = .error from rfl,
      show tagP (str "float") (str "_Bool" ++ y) = .error from rfl,
      show tagP (str "double") (str "_Bool" ++ y) = .error from rfl,
      show tagP (str "signed") (str "_Bool" ++ y) = .error from rfl,
      show tagP (str "unsigned") (str "_Bool" ++ y) = .error from rfl]
  · simp [specifier_alt, orElseP, tagP_append,
      show tagP (str "void") (str "_Complex" ++ y) = .error from rfl,
      show tagP (str "char") (str "_Complex" ++ y) = .error from rfl,
      show tagP (str "short") (str "_Complex" ++ y) = .error from rfl,
      show tagP (str "int") (str "_Complex" ++ y) = .error from rfl,
      show tagP (str "long") (str "_Complex" ++ y) = .error from rfl,
      show tagP (str "float") (str "_Complex" ++ y) = .error from rfl,
      show tagP (str "double") (str "_Complex" ++ y) = .error from rfl,
      show tagP (str "signed") (str "_Complex" ++ y) = .error from rfl,
      show tagP (str "unsigned") (str "_Complex" ++ y) = .error from rfl,
      show tagP (str "_Bool") (str "_Complex" ++ y) = .error from rfl]
  · simp [specifier_alt, orElseP, tagP_append,
      show tagP (str "void") (str "size_t" ++ y) = .error from rfl,
      show tagP (str "char") (str "size_t" ++ y) = .error from rfl,
      show tagP (str "short") (str "size_t" ++ y) = .error from rfl,
      show tagP (str "int") (str "size_t" ++ y) = .error from rfl,
      show tagP (str "long") (str "size_t" ++ y) = .error from rfl,
      show tagP (str "float") (str "size_t" ++ y) = .error from rfl,
      show tagP (str "double") (str "size_t" ++ y) = .error from rfl,
      show tagP (str "signed") (str "size_t" ++ y) = .error from rfl,
      show tagP (str "unsigned") (str "size_t" ++ y) = .error from rfl,
      show tagP (str "_Bool") (str "size_t" ++ y) = .error from rfl,
      show tagP (str "_Complex") (str "size_t" ++ y) = .error from rfl]

theorem qualsSpec_head (qs : List TypeQualifier) (hs : s ∈ specSet) (y : List Char) :
    ∃ d, (qualsText qs ++ (s ++ y)).head? = some d ∧ isWsChar d = false ∧ d ≠ '*' := by
  cases qs with
  | nil =>
    rcases specSet_cases hs with rfl | rfl | rfl | rfl | rfl | rfl | rfl | rfl | rfl | rfl | rfl | rfl
    · exact ⟨'v', rfl, by decide, by decide⟩
    · exact ⟨'c', rfl, by decide, by decide⟩
    · exact ⟨'s', rfl, by decide, by decide⟩
    · exact ⟨'i', rfl, by decide, by decide⟩
    · exact ⟨'l', rfl, by decide, by decide⟩
    · exact ⟨'f', rfl, by decide, by decide⟩
    · exact ⟨'d', rfl, by decide, by decide⟩
    · exact ⟨'s', rfl, by decide, by decide⟩
    · exact ⟨'u', rfl, by decide, by decide⟩
    · exact ⟨'_', rfl, by decide, by decide⟩
    · exact ⟨'_', rfl, by decide, by decide⟩
    · exact ⟨'s', rfl, by decide, by decide⟩
  | cons q qs2 =>
    cases q with
    | Const =>
      refine ⟨'c', ?_, by decide, by decide⟩
      simp [qualsText, displayQualifier, List.append_assoc,
        show str "const" = ['c', 'o', 'n', 's', 't'] from rfl]
    | Restrict =>
      refine ⟨'r', ?_, by decide, by decide⟩
      simp [qualsText, displayQualifier, List.append_assoc,
        show str "restrict" = ['r', 'e', 's', 't', 'r', 'i', 'c', 't'] from rfl]
    | Volatile =>
      refine ⟨'v', ?_, by decide, by decide⟩
      simp [qualsText, displayQualifier, List.append_assoc,
        show str "volatile" = ['v', 'o', 'l', 'a', 't', 'i', 'l', 'e'] from rfl]
    | Atomic =>
      refine ⟨'_', ?_, by decide, by decide⟩
      simp [qualsText, displayQualifier, List.append_assoc,
        show str "_Atomic" = ['_', 'A', 't', 'o', 'm', 'i', 'c'] from rfl]

theorem sp_head_nws (hx : X.head? = some d) (hd : isWsChar d = false) : sp X = .ok X [] := by
  cases X with
  | nil => simp at hx
  | cons x xs =>
    simp at hx
    subst hx
    simp [sp, hd]

theorem sp_space_one (hx : X.head? = some d) (hd : isWsChar d = false) :
    sp (' ' :: X) = .ok X [' '] := by
  cases X with
  | nil => simp at hx
  | cons x xs =>
    simp at hx
    subst hx
    simp [sp, hd, show isWsChar ' ' = true from rfl]

theorem multispace_one (hx : X.head? = some d) (hd : isWsChar d = false) :
    multispace (' ' :: X) = .ok X [' '] := by
  cases X with
  | nil => simp at hx
  | cons x xs =>
    simp at hx
    subst hx
    simp [multispace, sp, hd, show isWsChar ' ' = true from rfl]

theorem quals_many0 :
    ∀ (qs : List TypeQualifier) (s : List Char), s ∈ specSet → ∀ (y : List Char) (fuel : Nat),
      (qualsText qs).length < fuel →
      many0F (terminatedP qualifier_alt multispace) fuel (qualsText qs ++ (s ++ y))
        = .ok (s ++ y) qs := by
  intro qs
  induction qs with
  | nil =>
    intro s hs y fuel hf
    obtain ⟨f, rfl⟩ : ∃ f, fuel = f + 1 := ⟨fuel - 1, by omega⟩
    have hstop : terminatedP qualifier_alt multispace (s ++ y) = .error := by
      simp [terminatedP, bindP, qual_alt_spec_error hs]
    simp [qualsText, many0F, hstop]
  | cons q qs2 ih =>
    intro s hs y fuel hf
    obtain ⟨f, rfl⟩ : ∃ f, fuel = f + 1 := ⟨fuel - 1, by omega⟩
    have hshape : qualsText (q :: qs2) ++ (s ++ y)
        = displayQualifier q ++ (' ' :: (qualsText qs2 ++ (s ++ y))) := by
      simp [qualsText, List.append_assoc, show str " " = [' '] from rfl]
    obtain ⟨d, hd, hdw, _⟩ := qualsSpec_head qs2 hs y
    have hterm : terminatedP qualifier_alt multispace
        (displayQualifier q ++ (' ' :: (qualsText qs2 ++ (s ++ y))))
        = .ok (qualsText qs2 ++ (s ++ y)) q := by
      simp [terminatedP, bindP, qualifier_alt_self, multispace_one hd hdw, pureP]
    have hlen : (qualsText qs2 ++ (s ++ y)).length
        < (displayQualifier q ++ (' ' :: (qualsText qs2 ++ (s ++ y)))).length := by
      simp only [List.length_append, List.length_cons]
      omega
    have hq := congrArg List.length hshape
    simp only [List.length_append, List.length_cons] at hq
    have hfl : (qualsText qs2).length < f := by omega
    rw [hshape]
    simp [many0F, hterm, hlen, ih s hs y f hfl]; omega

theorem stars_many0 :
    ∀ (p : Nat) (X : List Char) (d : Char), X.head? = some d → d ≠ '*' → ∀ fuel : Nat, p < fuel →
      many0F (valueP () (tagP (str "*"))) fuel (List.replicate p '*' ++ X)
        = .ok X (List.replicate p ()) := by
  intro p
  induction p with
  | zero =>
    intro X d hx hd fuel hf
    obtain ⟨f, rfl⟩ : ∃ f, fuel = f + 1 := ⟨fuel - 1, by omega⟩
    cases X with
    | nil => simp at hx
    | cons x xs =>
      simp at hx
      subst hx
      simp [many0F, valueP, mapP, show str "*" = ['*'] from rfl, tagP_head_ne (Ne.symm hd)]
  | succ k ih =>
    intro X d hx hd fuel hf
    obtain ⟨f, rfl⟩ : ∃ f, fuel = f + 1 := ⟨fuel - 1, by omega⟩
    have hstar : valueP () (tagP (str "*")) ('*' :: (List.replicate k '*' ++ X))
        = .ok (List.replicate k '*' ++ X) () := by
      simp [valueP, mapP, tagP, tagAux, show str "*" = ['*'] from rfl]
    have hlen : (List.replicate k '*' ++ X).length < ('*' :: (List.replicate k '*' ++ X)).length := by
      simp
    have hrep : List.replicate (k + 1) '*' ++ X = '*' :: (List.replicate k '*' ++ X) := by
      simp [List.replicate_succ]
    rw [hrep]
    simp [many0F, hstar, hlen, ih X d hx hd f (by omega), List.replicate_succ]

theorem parse_type_rendered (qs : List TypeQualifier) (hs : s ∈ specSet)
    (hx : X.head? = some d) (hdw : isWsChar d = false) (hds : d ≠ '*') (p : Nat) :
    parse_type (qualsText qs ++ (s ++ (' ' :: (List.replicate p '*' ++ X))))
      = .ok X ⟨qs, s, p⟩ := by
  have h1 : many0 (terminatedP qualifier_alt multispace)
      (qualsText qs ++ (s ++ (' ' :: (List.replicate p '*' ++ X))))
      = .ok (s ++ (' ' :: (List.replicate p '*' ++ X))) qs := by
    unfold many0
    apply quals_many0 qs s hs
    simp only [List.length_append, List.length_cons]
    omega
  obtain ⟨e, he, hew, _⟩ := qualsSpec_head ([] : List TypeQualifier) hs
    (' ' :: (List.replicate p '*' ++ X))
  have he2 : (s ++ (' ' :: (List.replicate p '*' ++ X))).head? = some e := by
    simpa [qualsText] using he
  have h2 : sp (s ++ (' ' :: (List.replicate p '*' ++ X)))
      = .ok (s ++ (' ' :: (List.replicate p '*' ++ X))) [] := sp_head_nws he2 hew
  have h3 := specifier_alt_self hs (' ' :: (List.replicate p '*' ++ X))
  have hx2 : ∃ e2, (List.replicate p '*' ++ X).head? = some e2 ∧ isWsChar e2 = false := by
    cases p with
    | zero => exact ⟨d, by simpa using hx, hdw⟩
    | succ k => exact ⟨'*', by simp [List.replicate_succ], by decide⟩
  obtain ⟨e2, he2x, he2w⟩ := hx2
  have h4 : sp (' ' :: (List.replicate p '*' ++ X)) = .ok (List.replicate p '*' ++ X) [' '] :=
    sp_space_one he2x he2w
  have h5 : many0 (valueP () (tagP (str "*"))) (List.replicate p '*' ++ X)
      = .ok X (List.replicate p ()) := by
    unfold many0
    apply stars_many0 p X d hx hds
    simp only [List.length_append, List.length_replicate]
    omega
  simp [parse_type, bindP, h1, h2, h3, h4, h5, pureP]

theorem typePartEq (t : CType) (n : List Char) :
    displayType t ++ ((if t.pointer = 0 then str " " else []) ++ n)
      = qualsText t.qualifiers ++ (t.specifier ++ (' ' :: (List.replicate t.pointer '*' ++ n))) := by
  obtain ⟨qs, s, p⟩ := t
  cases p with
  | zero => simp [displayType, qualsText, List.append_assoc, show str " " = [' '] from rfl]
  | succ k => simp [displayType, qualsText, List.append_assoc, show str " " = [' '] from rfl]

theorem nd_ne_star2 : ∀ c ∈ ndChars, c ≠ '*' := by decide

theorem nameHead_facts (hn : GoodName n) :
    ∃ d z, n = d :: z ∧ isWsChar d = false ∧ d ≠ '*' := by
  obtain ⟨⟨h, t, rfl, hh⟩, _⟩ := hn
  refine ⟨h, t, rfl, ?_, ?_⟩
  · rcases hh with hh | rfl
    · exact nd_not_ws h hh
    · decide
  · rcases hh with hh | rfl
    · exact nd_ne_star2 h hh
    · decide

theorem stopChar_comma : StopChar ',' := ⟨by decide, by decide, by decide⟩

theorem stopChar_rparen : StopChar ')' := ⟨by decide, by decide, by decide⟩

theorem stopChar_lparen : StopChar '(' := ⟨by decide, by decide, by decide⟩

theorem paramText_shape (p : CType × List Char) (hn : GoodName p.2) (W : List Char) :
    ∃ d z, p.2 = d :: z ∧ isWsChar d = false ∧ d ≠ '*' ∧
      paramText p ++ W = qualsText p.1.qualifiers ++ (p.1.specifier ++ (' ' ::
        (List.replicate p.1.pointer '*' ++ (p.2 ++ W)))) := by
  obtain ⟨d, z, hdz, hdw, hds⟩ := nameHead_facts hn
  refine ⟨d, z, hdz, hdw, hds, ?_⟩
  simp only [paramText, List.append_assoc]
  rw [typePartEq]

theorem opt_ms_head (hx : I.head? = some d) (hd : isWsChar d = false) :
    optP multispace I = .ok I none := by
  cases I with
  | nil => simp at hx
  | cons x xs =>
    simp at hx
    subst hx
    exact opt_ms_nws hd xs

theorem param_item_rendered (hp : p.1.specifier ∈ specSet) (hn : GoodName p.2)
    (hc : StopChar c) (_hcw : isWsChar c = false) (y : List Char) :
    param_item (paramText p ++ (c :: y)) = .ok (c :: y) p := by
  obtain ⟨d, z, hdz, hdw, hds, hshape⟩ := paramText_shape p hn (c :: y)
  obtain ⟨e, he, hew, _⟩ := qualsSpec_head p.1.qualifiers hp
      (' ' :: (List.replicate p.1.pointer '*' ++ (p.2 ++ (c :: y))))
  have hxname : (p.2 ++ (c :: y)).head? = some d := by rw [hdz]; simp
  have h0 : sp (qualsText p.1.qualifiers ++ (p.1.specifier ++ (' ' ::
      (List.replicate p.1.pointer '*' ++ (p.2 ++ (c :: y))))))
      = .ok (qualsText p.1.qualifiers ++ (p.1.specifier ++ (' ' ::
          (List.replicate p.1.pointer '*' ++ (p.2 ++ (c :: y)))))) [] := sp_head_nws he hew
  have h1 : parse_type (qualsText p.1.qualifiers ++ (p.1.specifier ++ (' ' ::
      (List.replicate p.1.pointer '*' ++ (p.2 ++ (c :: y))))))
      = .ok (p.2 ++ (c :: y)) ⟨p.1.qualifiers, p.1.specifier, p.1.pointer⟩ :=
    parse_type_rendered _ hp hxname hdw hds _
  have h2 : sp (p.2 ++ (c :: y)) = .ok (p.2 ++ (c :: y)) [] := sp_head_nws hxname hdw
  have h3 : identifier (p.2 ++ (c :: y)) = .ok (c :: y) p.2 := hn.2 c y hc
  rw [hshape]
  simp [param_item, bindP, h0, h1, h2, h3, pureP]

theorem paramText_head (hp : p.1.specifier ∈ specSet) (hn : GoodName p.2) (W : List Char) :
    ∃ e, (paramText p ++ W).head? = some e ∧ isWsChar e = false := by
  obtain ⟨d, z, hdz, hdw, hds, hshape⟩ := paramText_shape p hn W
  obtain ⟨e, he, hew, _⟩ := qualsSpec_head p.1.qualifiers hp
      (' ' :: (List.replicate p.1.pointer '*' ++ (p.2 ++ W)))
  exact ⟨e, by rw [hshape]; exact he, hew⟩

theorem paramText_length_pos (hn : GoodName p.2) : 0 < (paramText p).length := by
  obtain ⟨d, z, hdz, _, _, hsh⟩ := paramText_shape p hn []
  have hlen := congrArg List.length hsh
  have hp2 : p.2.length = z.length + 1 := by rw [hdz]; simp
  simp only [List.length_append, List.length_cons, List.length_replicate] at hlen
  omega

theorem tail_shape (ps : List (CType × List Char)) (y : List Char) :
    ∃ c2 y2, paramsTailText ps ++ (')' :: y) = c2 :: y2 ∧ StopChar c2 ∧ isWsChar c2 = false := by
  cases ps with
  | nil => exact ⟨')', y, by simp [paramsTailText], stopChar_rparen, by decide⟩
  | cons p ps2 =>
    refine ⟨',', ' ' :: (paramText p ++ (paramsTailText ps2 ++ (')' :: y))), ?_,
      stopChar_comma, by decide⟩
    simp [paramsTailText, List.append_assoc, show str ", " = [',', ' '] from rfl]

theorem comma_sep_stop (y : List Char) : comma_sep (')' :: y) = .error := by
  simp [comma_sep, bindP, sp_nws (show isWsChar ')' = false from rfl),
    show str "," = [','] from rfl, tagP_head_ne (show ',' ≠ ')' from by decide)]

theorem params_tail_loop :
    ∀ ps : List (CType × List Char), (∀ p ∈ ps, p.1.specifier ∈ specSet ∧ GoodName p.2) →
    ∀ (y : List Char) (fuel : Nat), (paramsTailText ps).length < fuel →
      sepLoopF comma_sep param_item fuel (paramsTailText ps ++ (')' :: y)) = .ok (')' :: y) ps := by
  intro ps
  induction ps with
  | nil =>
    intro _ y fuel hf
    obtain ⟨f, rfl⟩ : ∃ f, fuel = f + 1 := ⟨fuel - 1, by omega⟩
    simp [paramsTailText, sepLoopF, comma_sep_stop]
  | cons p ps2 ih =>
    intro hv y fuel hf
    obtain ⟨f, rfl⟩ : ∃ f, fuel = f + 1 := ⟨fuel - 1, by omega⟩
    have hp := hv p (by simp)
    have hps2 : ∀ q ∈ ps2, q.1.specifier ∈ specSet ∧ GoodName q.2 :=
      fun q hq => hv q (by simp [hq])
    have hshape : paramsTailText (p :: ps2) ++ (')' :: y)
        = ',' :: ' ' :: (paramText p ++ (paramsTailText ps2 ++ (')' :: y))) := by
      simp [paramsTailText, List.append_assoc, show str ", " = [',', ' '] from rfl]
    obtain ⟨e, he, hew⟩ := paramText_head hp.1 hp.2 (paramsTailText ps2 ++ (')' :: y))
    have hsep : comma_sep (',' :: ' ' :: (paramText p ++ (paramsTailText ps2 ++ (')' :: y))))
        = .ok (paramText p ++ (paramsTailText ps2 ++ (')' :: y))) () := by
      simp [comma_sep, bindP, sp_nws (show isWsChar ',' = false from rfl),
        show str "," = [','] from rfl, tagP, tagAux, sp_space_one he hew, pureP]
    obtain ⟨c2, y2, hty, hc2, hc2w⟩ := tail_shape ps2 y
    have hitem : param_item (paramText p ++ (paramsTailText ps2 ++ (')' :: y)))
        = .ok (paramsTailText ps2 ++ (')' :: y)) p := by
      rw [hty]
      exact param_item_rendered hp.1 hp.2 hc2 hc2w y2
    have hpt := paramText_length_pos hp.2
    have hne1 : ¬ ((paramText p ++ (paramsTailText ps2 ++ (')' :: y))).length
        = (',' :: ' ' :: (paramText p ++ (paramsTailText ps2 ++ (')' :: y)))).length) := by
      simp only [List.length_append, List.length_cons]
      omega
    have hne2 : ¬ ((paramsTailText ps2 ++ (')' :: y)).length
        = (paramText p ++ (paramsTailText ps2 ++ (')' :: y))).length) := by
      simp only [List.length_append, List.length_cons]
      omega
    have hq := congrArg List.length hshape
    simp only [List.length_append, List.length_cons] at hq
    have hfl : (paramsTailText ps2).length < f := by omega
    have hptne : paramText p ≠ [] := List.length_pos.mp hpt
    rw [hshape]
    simp [sepLoopF, hsep, hne1, hitem, hne2, ih hps2 y f hfl]
    rw [if_neg (by omega), if_neg hptne]

theorem paramListText_decomp (p : CType × List Char) :
    ∀ ps2, paramListText (p :: ps2) = paramText p ++ paramsTailText ps2 := by
  intro ps2
  induction ps2 generalizing p with
  | nil => simp [paramListText, paramsTailText]
  | cons q ps3 ih => simp [paramListText, paramsTailText, ih q, List.append_assoc]

theorem param_item_stop (y : List Char) : param_item (')' :: y) = .error := by
  have h1 : parse_type (')' :: y) = .error := by
    simp [parse_type, bindP,
      many0_error_head (show terminatedP qualifier_alt multispace (')' :: y) = .error from rfl),
      sp_nws (show isWsChar ')' = false from rfl),
      show specifier_alt (')' :: y) = .error from rfl]
  simp [param_item, bindP, sp_nws (show isWsChar ')' = false from rfl), h1]

theorem parameters_rendered :
    ∀ ps : List (CType × List Char), (∀ p ∈ ps, p.1.specifier ∈ specSet ∧ GoodName p.2) →
    ∀ y : List Char, parameters (paramListText ps ++ (')' :: y)) = .ok (')' :: y) ps := by
  intro ps hv y
  cases ps with
  | nil =>
    simp only [paramListText, List.nil_append]
    simp [parameters, bindP, sp_nws (show isWsChar ')' = false from rfl),
      separated_list, param_item_stop, pureP]
  | cons p ps2 =>
    have hp := hv p (by simp)
    have hps2 : ∀ q ∈ ps2, q.1.specifier ∈ specSet ∧ GoodName q.2 :=
      fun q hq => hv q (by simp [hq])
    rw [paramListText_decomp, List.append_assoc]
    obtain ⟨e, he, hew⟩ := paramText_head hp.1 hp.2 (paramsTailText ps2 ++ (')' :: y))
    obtain ⟨c2, y2, hty, hc2, hc2w⟩ := tail_shape ps2 y
    have h0 : sp (paramText p ++ (paramsTailText ps2 ++ (')' :: y)))
        = .ok (paramText p ++ (paramsTailText ps2 ++ (')' :: y))) [] := sp_head_nws he hew
    have hitem : param_item (paramText p ++ (paramsTailText ps2 ++ (')' :: y)))
        = .ok (paramsTailText ps2 ++ (')' :: y)) p := by
      rw [hty]
      exact param_item_rendered hp.1 hp.2 hc2 hc2w y2
    have hpt := paramText_length_pos hp.2
    have hne1 : ¬ ((paramsTailText ps2 ++ (')' :: y)).length
        = (paramText p ++ (paramsTailText ps2 ++ (')' :: y))).length) := by
      simp only [List.length_append, List.length_cons]
      omega
    have hptne : paramText p ≠ [] := List.length_pos.mp hpt
    have hloop := params_tail_loop ps2 hps2 y ((paramsTailText ps2).length + (y.length + 1) + 1)
      (by omega)
    have hsp2 : sp (')' :: y) = .ok (')' :: y) [] := sp_nws (show isWsChar ')' = false from rfl) y
    simp [parameters, bindP, h0, separated_list, hitem, hne1, hloop, hsp2, pureP, hptne]

theorem unitsChars_map_nd : ∀ cs : List Char, unitsChars (cs.map IdUnit.nd) = cs := by
  intro cs
  induction cs with
  | nil => rfl
  | cons c cs2 ih =>
    simp only [List.map_cons, unitsChars_cons, IdUnit.chars]
    simp [ih]

theorem goodName_letters (hne : l ≠ []) (hall : ∀ c ∈ l, c ∈ ndChars) : GoodName l := by
  cases l with
  | nil => exact absurd rfl hne
  | cons c cs =>
    have h := goodName_of_units (.nd c) (cs.map .nd)
      (by simp only [IdUnit.valid, decide_eq_true_eq]; exact hall c (by simp))
      (by
        intro v hv
        obtain ⟨c2, hc2, rfl⟩ := List.mem_map.mp hv
        simp only [IdUnit.valid, decide_eq_true_eq]
        exact hall c2 (by simp [hc2]))
      (by simp [IdUnit.isDigitUnit])
    simpa [IdUnit.chars, unitsChars_map_nd] using h

theorem wellFormed_readFn : WellFormedFun readFn := by
  refine ⟨by decide, goodName_letters (by decide) (by decide), ?_⟩
  intro pr hpr
  fin_cases hpr
  · exact ⟨by decide, goodName_letters (by decide) (by decide)⟩
  · exact ⟨by decide, goodName_letters (by decide) (by decide)⟩
  · exact ⟨by decide, goodName_letters (by decide) (by decide)⟩

theorem stopChar_semi : StopChar ';' := ⟨by decide, by decide, by decide⟩

/-- C8.  Re-parsing the generator's own rendered signature (with a terminating
semicolon appended, since the declaration parser requires it) reproduces the
return type, name and parameter structure of the original declaration, for
every declaration whose specifiers belong to the fixed set and whose names are
single identifier tokens — exactly the declarations the parser can produce. -/
theorem c8_signature_roundtrip :
    ∀ fn : Function, WellFormedFun fn →
      function (get_signature fn false ++ str ";") = .ok [] fn := by
  intro fn hwf
  obtain ⟨⟨qs, s, p⟩, nm, ps⟩ := fn
  obtain ⟨hs, hname, hparams⟩ := hwf
  dsimp only at hs hname hparams
  obtain ⟨d, z, hnz, hdw, hds⟩ := nameHead_facts hname
  have hxname : (nm ++ ('(' :: (paramListText ps ++ [')', ';']))).head? = some d := by
    rw [hnz]
    simp
  have h1 : parse_type (qualsText qs ++ (s ++ (' ' :: (List.replicate p '*' ++
        (nm ++ ('(' :: (paramListText ps ++ [')', ';'])))))))
      = .ok (nm ++ ('(' :: (paramListText ps ++ [')', ';']))) ⟨qs, s, p⟩ :=
    parse_type_rendered qs hs hxname hdw hds p
  have h2 : optP multispace (nm ++ ('(' :: (paramListText ps ++ [')', ';'])))
      = .ok (nm ++ ('(' :: (paramListText ps ++ [')', ';']))) none :=
    opt_ms_head hxname hdw
  have h3 : identifier (nm ++ ('(' :: (paramListText ps ++ [')', ';'])))
      = .ok ('(' :: (paramListText ps ++ [')', ';'])) nm :=
    hname.2 '(' (paramListText ps ++ [')', ';']) stopChar_lparen
  have h5 : parameters (paramListText ps ++ (')' :: [';'])) = .ok (')' :: [';']) ps :=
    parameters_rendered ps hparams [';']
  have hshape : get_signature ⟨⟨qs, s, p⟩, nm, ps⟩ false ++ str ";"
      = qualsText qs ++ (s ++ (' ' :: (List.replicate p '*' ++
          (nm ++ ('(' :: (paramListText ps ++ [')', ';'])))))) := by
    cases p with
    | zero =>
      simp [get_signature, displayType, qualsText, List.append_assoc,
        show str " " = [' '] from rfl, show str ";" = [';'] from rfl,
        show str ")" = [')'] from rfl, show str "(" = ['('] from rfl]
    | succ k =>
      simp [get_signature, displayType, qualsText, List.append_assoc,
        show str " " = [' '] from rfl, show str ";" = [';'] from rfl,
        show str ")" = [')'] from rfl, show str "(" = ['('] from rfl]
  rw [hshape]
  simp [function, bindP, h1, h2, h3, h5, charP, pureP,
    opt_ms_nws (show isWsChar '(' = false from rfl),
    opt_ms_nws (show isWsChar ';' = false from rfl)]

set_option maxRecDepth 600000 in
/-- Witness for C8 at the `read` declaration: its rendered signature, followed
by a semicolon, re-parses to the very same declaration. -/
theorem c8_signature_roundtrip_witness :
    function (str "size_t read(int fd, char *buf, size_t count);") = .ok [] readFn :=
  c8_signature_roundtrip readFn wellFormed_readFn
end Ldpsc
